import Mathlib

/-!
# Tic-Tac-BOOM: the turn engine of `javascript.js`

A shallow embedding of the game script: the global variables and the parts of the
page the script writes become one `State` record, every function of the script
becomes a function on `State`, and the browser's timers become an explicit list of
pending callbacks.  `Math.random()` is an oracle: a stream of naturals, one per
draw, from which `pickRandomEmptyCell` takes `r % n` as `Math.floor(Math.random() * n)`.

The three functions `makeCellActive`, `handleResultValidation` and `endTurn` call
each other; they are defined by recursion on a call-depth budget (`fuel`) and
return `none` only when that budget is exhausted.
-/

namespace TicTacBoom

/-! ## Data model -/

/-- The two values `currentPlayer` ever holds: the strings `"X"` and `"O"`. -/
inductive Player where
  | X
  | O
  deriving DecidableEq, Repr

/-- A value of `gameState`: the empty string or a player's letter. -/
inductive Cell where
  | empty
  | mark (p : Player)
  deriving DecidableEq, Repr

/-- The texts the script writes into `statusDisplay` and `playerTurnDisplay`. -/
inductive Message where
  | welcome
  | ready
  | currentPlayerMessage (p : Player)
  | winningMessage (p : Player)
  | drawMessage
  | timeUpMessage (p : Player)
  | spotTaken
  | wrongCell
  deriving DecidableEq, Repr

/-- The three callbacks the script hands to `setInterval` / `setTimeout`:
the countdown interval of `startReactionTimer`, the deferred `endTurn` of
`handleTimeUp`, and the status-revert timeout of the click listener. -/
inductive TimerKind where
  | countdown
  | skip
  | revert
  deriving DecidableEq, Repr

/-- One `.cell` element of the page: its text and the classes the script toggles. -/
structure CellElem where
  innerHTML : Cell
  x : Bool
  o : Bool
  clickable : Bool
  deriving DecidableEq, Repr

/-- The global variables of the script, the page elements it writes, and the
browser's pending timers (`timers`, with `nextTimerId` the next handle to be issued). -/
structure State where
  gameActive : Bool
  currentPlayer : Player
  gameState : List Cell
  currentReactionTime : Int
  reactionTimerInterval : Option Nat
  currentActiveCellIndex : Int
  playerTurnDisplay : Message
  statusDisplay : Message
  reactionTimerText : Int
  reactionTimerDanger : Bool
  cells : List CellElem
  startButtonHidden : Bool
  restartButtonHidden : Bool
  timers : List (Nat × TimerKind)
  nextTimerId : Nat
  deriving DecidableEq, Repr

/-- The constant `reactionTimeLimit`. -/
def reactionTimeLimit : Int := 3

/-- The constant `winningConditions`: rows, columns, diagonals. -/
def winningConditions : List (Nat × Nat × Nat) :=
  [(0, 1, 2), (3, 4, 5), (6, 7, 8),
   (0, 3, 6), (1, 4, 7), (2, 5, 8),
   (0, 4, 8), (2, 4, 6)]

/-- The ternary of `endTurn`: `currentPlayer === "X" ? "O" : "X"`. -/
def Player.other (p : Player) : Player :=
  if p = Player.X then Player.O else Player.X

/-- An element of a list at a JavaScript index: `undefined` (`none`) when the index
is negative or past the end. -/
def jsGet {α : Type} (xs : List α) (i : Int) : Option α :=
  if i < 0 then none else xs[i.toNat]?

/-- Apply `f` to the element at a JavaScript index. Where the list has no element at the
index the list is returned as it is: the model has no exceptions, so the `TypeError` of
`cells[index].classList` at such an index is not represented, and the statements about
`makeCellActive` and `handleCellPlayed` are made for indices that have a cell element. -/
def jsModify {α : Type} (f : α → α) (xs : List α) (i : Int) : List α :=
  if i < 0 then xs else xs.modify f i.toNat

/-- The assignment `cell.innerHTML = v`. -/
def setInnerHTML (v : Cell) (c : CellElem) : CellElem := { c with innerHTML := v }

/-- The call `classList.add(currentPlayer.toLowerCase())`. -/
def addPlayerClass (p : Player) (c : CellElem) : CellElem :=
  if p = Player.X then { c with x := true } else { c with o := true }

/-- The call `classList.add('clickable')` or `classList.remove('clickable')`. -/
def setClickable (b : Bool) (c : CellElem) : CellElem := { c with clickable := b }

/-- The call `classList.remove('x', 'o', 'clickable')`. -/
def clearClasses (c : CellElem) : CellElem := { c with x := false, o := false, clickable := false }

/-! ## Timers -/

/-- The pending timers once `handle` is cleared: `undefined` and unknown handles
change nothing. -/
def clearTimer (timers : List (Nat × TimerKind)) (handle : Option Nat) :
    List (Nat × TimerKind) :=
  match handle with
  | none => timers
  | some h => timers.filter (fun t => t.1 ≠ h)

/-- The browser's `clearInterval(handle)`. -/
def clearInterval (s : State) (handle : Option Nat) : State :=
  { s with timers := clearTimer s.timers handle }

/-- The browser's `setInterval` / `setTimeout`: registers the callback under a fresh
handle and returns the handle with the new state. -/
def setTimer (s : State) (k : TimerKind) : State × Nat :=
  ({ s with timers := s.timers ++ [(s.nextTimerId, k)], nextTimerId := s.nextTimerId + 1 },
   s.nextTimerId)

/-! ## Game logic -/

/-- The `forEach` of `pickRandomEmptyCell`: indices of empty cells, ascending,
counting from `i`. -/
def emptyCellsFrom : Nat → List Cell → List Nat
  | _, [] => []
  | i, c :: cs =>
    if c = Cell.empty then i :: emptyCellsFrom (i + 1) cs else emptyCellsFrom (i + 1) cs

/-- The local `emptyCells` of `pickRandomEmptyCell`. -/
def emptyCells (gameState : List Cell) : List Nat := emptyCellsFrom 0 gameState

/-- Function 1, `pickRandomEmptyCell`: `-1` when no cell is empty (no draw is made),
else the empty index chosen by the next draw; returns the rest of the oracle too. -/
def pickRandomEmptyCell (gameState : List Cell) (rnd : Nat → Nat) : Int × (Nat → Nat) :=
  if h : (emptyCells gameState).length = 0 then (-1, rnd)
  else
    let randomIndex := rnd 0 % (emptyCells gameState).length
    (((emptyCells gameState).get ⟨randomIndex, Nat.mod_lt _ (Nat.pos_of_ne_zero h)⟩ : Nat),
     fun n => rnd (n + 1))

/-- Function 2, `startReactionTimer`. -/
def startReactionTimer (s : State) : State :=
  let s := clearInterval s s.reactionTimerInterval
  let s := { s with currentReactionTime := reactionTimeLimit }
  let s := { s with reactionTimerText := s.currentReactionTime }
  let s := { s with reactionTimerDanger := false }
  let (s, h) := setTimer s TimerKind.countdown
  { s with reactionTimerInterval := some h }

/-- Function 3, `handleTimeUp`. -/
def handleTimeUp (s : State) : State :=
  if !s.gameActive then s
  else
    let s := { s with statusDisplay := Message.timeUpMessage s.currentPlayer }
    (setTimer s TimerKind.skip).1

/-- The callback `startReactionTimer` hands to `setInterval`. -/
def countdownTick (s : State) : State :=
  let s := { s with currentReactionTime := s.currentReactionTime - 1 }
  let s := { s with reactionTimerText := s.currentReactionTime }
  let s := if s.currentReactionTime ≤ 1 then { s with reactionTimerDanger := true } else s
  if s.currentReactionTime ≤ 0 then
    handleTimeUp (clearInterval s s.reactionTimerInterval)
  else s

/-- The winning-line scan of `handleResultValidation`, over the remaining conditions:
a line with an empty value is skipped (`continue`), the first line with three equal
values stops the scan (`break`). -/
def roundWonLoop (gameState : List Cell) : List (Nat × Nat × Nat) → Bool
  | [] => false
  | winCondition :: rest =>
    let a := gameState[winCondition.1]?
    let b := gameState[winCondition.2.1]?
    let c := gameState[winCondition.2.2]?
    if a = some Cell.empty ∨ b = some Cell.empty ∨ c = some Cell.empty then
      roundWonLoop gameState rest
    else if a = b ∧ b = c then true
    else roundWonLoop gameState rest

/-- The value of `roundWon` after the scan. -/
def roundWon (gameState : List Cell) : Bool := roundWonLoop gameState winningConditions

/-- Function 8, `endGame`. -/
def endGame (s : State) : State :=
  let s := { s with gameActive := false }
  let s := clearInterval s s.reactionTimerInterval
  let s :=
    if s.currentActiveCellIndex ≠ -1 ∧ (jsGet s.cells s.currentActiveCellIndex).isSome then
      { s with cells := jsModify (setClickable false) s.cells
                          s.currentActiveCellIndex }
    else s
  { s with startButtonHidden := true, restartButtonHidden := false }

mutual

/-- Function 4, `makeCellActive`. The script throws at `cells[index].classList` when the
page has no element at `index`; the model covers the indices with a cell element
(`hasCell`), the only ones `startGame` and `endTurn` pass on a page with a cell for
every index of the board. -/
def makeCellActive : Nat → State → Int → (Nat → Nat) → Option State
  | 0, _, _, _ => none
  | fuel + 1, s, index, rnd =>
    if index = -1 then handleResultValidation fuel s rnd
    else
      let s := { s with currentActiveCellIndex := index }
      let s := { s with cells := jsModify (setClickable true) s.cells index }
      some (startReactionTimer s)

/-- Function 6, `handleResultValidation`. -/
def handleResultValidation : Nat → State → (Nat → Nat) → Option State
  | 0, _, _ => none
  | fuel + 1, s, rnd =>
    if roundWon s.gameState then
      some (endGame { s with statusDisplay := Message.winningMessage s.currentPlayer })
    else
      let roundDraw := !s.gameState.contains Cell.empty
      if roundDraw then
        some (endGame { s with statusDisplay := Message.drawMessage })
      else endTurn fuel s rnd

/-- Function 7, `endTurn`. -/
def endTurn : Nat → State → (Nat → Nat) → Option State
  | 0, _, _ => none
  | fuel + 1, s, rnd =>
    if !s.gameActive then some s
    else
      let s := { s with currentPlayer := s.currentPlayer.other }
      let s := { s with playerTurnDisplay := Message.currentPlayerMessage s.currentPlayer }
      let s := { s with statusDisplay := Message.currentPlayerMessage s.currentPlayer }
      let (nextCellToClick, rnd) := pickRandomEmptyCell s.gameState rnd
      if nextCellToClick = -1 then handleResultValidation fuel s rnd
      else makeCellActive fuel s nextCellToClick rnd

end

/-- Function 5, `handleCellPlayed`. The script throws at
`cells[currentActiveCellIndex].classList` when no element is at the active index; the
listener calls the function only with the clicked cell as the active one, the case the
model covers. -/
def handleCellPlayed (fuel : Nat) (s : State) (clickedCellIndex : Nat) (rnd : Nat → Nat) :
    Option State :=
  if !s.gameActive then some s
  else
    let s := clearInterval s s.reactionTimerInterval
    let s := { s with cells := jsModify (setClickable false) s.cells
                                 s.currentActiveCellIndex }
    let s := { s with gameState := s.gameState.set clickedCellIndex (Cell.mark s.currentPlayer) }
    let s := { s with cells := jsModify (setInnerHTML (Cell.mark s.currentPlayer)) s.cells
                                 clickedCellIndex }
    let s := { s with cells := jsModify (addPlayerClass s.currentPlayer) s.cells
                                 clickedCellIndex }
    handleResultValidation fuel s rnd

/-- The assignments of `startGame` before it picks the first cell, as one record
update: the variables are reset, the stored interval handle is cleared, the displays
show player X and every cell loses its text and classes. -/
def resetGame (s : State) : State :=
  { s with
    gameActive := true,
    currentPlayer := Player.X,
    gameState := [Cell.empty, Cell.empty, Cell.empty, Cell.empty, Cell.empty,
                  Cell.empty, Cell.empty, Cell.empty, Cell.empty],
    currentActiveCellIndex := -1,
    timers := (clearInterval s s.reactionTimerInterval).timers,
    reactionTimerDanger := false,
    reactionTimerText := reactionTimeLimit,
    playerTurnDisplay := Message.currentPlayerMessage Player.X,
    statusDisplay := Message.currentPlayerMessage Player.X,
    startButtonHidden := true,
    restartButtonHidden := true,
    cells := List.map (fun c => clearClasses (setInnerHTML Cell.empty c)) s.cells }

/-- Function 9, `startGame`. -/
def startGame (fuel : Nat) (s : State) (rnd : Nat → Nat) : Option State :=
  let s := resetGame s
  let (firstCellToClick, rnd) := pickRandomEmptyCell s.gameState rnd
  makeCellActive fuel s firstCellToClick rnd

/-- The click listener of cell `index`. -/
def cellClick (fuel : Nat) (s : State) (index : Nat) (rnd : Nat → Nat) : Option State :=
  if !s.gameActive then some s
  else if (index : Int) = s.currentActiveCellIndex ∧ s.gameState[index]? = some Cell.empty then
    handleCellPlayed fuel s index rnd
  else if s.gameState[index]? ≠ some Cell.empty then
    some (setTimer { s with statusDisplay := Message.spotTaken } TimerKind.revert).1
  else
    some (setTimer { s with statusDisplay := Message.wrongCell } TimerKind.revert).1

/-! ## Events -/

/-- What the browser can deliver to the script: a click on cell `index`, the firing
of the pending timer with handle `id`, a click on the start or restart button. -/
inductive Event where
  | click (index : Nat)
  | fire (id : Nat)
  | start
  deriving DecidableEq, Repr

/-- The firing of timer `id`: nothing when no such timer is pending; an interval
stays pending, a timeout is removed before its callback runs. -/
def fireTimer (fuel : Nat) (s : State) (id : Nat) (rnd : Nat → Nat) : Option State :=
  match s.timers.lookup id with
  | none => some s
  | some TimerKind.countdown => some (countdownTick s)
  | some TimerKind.skip =>
    endTurn fuel { s with timers := s.timers.filter (fun t => t.1 ≠ id) } rnd
  | some TimerKind.revert =>
    let s := { s with timers := s.timers.filter (fun t => t.1 ≠ id) }
    some { s with statusDisplay := Message.currentPlayerMessage s.currentPlayer }

/-- One event handled to completion. -/
def step (fuel : Nat) (s : State) (e : Event) (rnd : Nat → Nat) : Option State :=
  match e with
  | Event.click index => cellClick fuel s index rnd
  | Event.fire id => fireTimer fuel s id rnd
  | Event.start => startGame fuel s rnd

/-- A sequence of events, each with its own oracle, handled one after the other. -/
def run (fuel : Nat) (s : State) : List (Event × (Nat → Nat)) → Option State
  | [] => some s
  | (e, rnd) :: es =>
    match step fuel s e rnd with
    | none => none
    | some s1 => run fuel s1 es

/-- The state when the script has loaded and `DOMContentLoaded` has fired, on a page
with nine unmarked cells. -/
def initialState : State where
  gameActive := false
  currentPlayer := Player.X
  gameState := [Cell.empty, Cell.empty, Cell.empty, Cell.empty, Cell.empty,
                Cell.empty, Cell.empty, Cell.empty, Cell.empty]
  currentReactionTime := reactionTimeLimit
  reactionTimerInterval := none
  currentActiveCellIndex := -1
  playerTurnDisplay := Message.welcome
  statusDisplay := Message.ready
  reactionTimerText := reactionTimeLimit
  reactionTimerDanger := false
  cells := List.replicate 9 { innerHTML := Cell.empty, x := false, o := false, clickable := false }
  startButtonHidden := false
  restartButtonHidden := true
  timers := []
  nextTimerId := 1

/-- The states the page can be in: the initial one and every state an event leads to. -/
inductive Reachable : State → Prop where
  | init : Reachable initialState
  | step (fuel : Nat) (s : State) (e : Event) (rnd : Nat → Nat) (s1 : State) :
      Reachable s → step fuel s e rnd = some s1 → Reachable s1

/-! ## Properties stated over the model -/

/-- Winning condition `l` holds for player `p`: its three cells carry the mark of `p`. -/
def lineHolds (gameState : List Cell) (l : Nat × Nat × Nat) (p : Player) : Prop :=
  gameState[l.1]? = some (Cell.mark p) ∧ gameState[l.2.1]? = some (Cell.mark p) ∧
    gameState[l.2.2]? = some (Cell.mark p)

/-- Some winning condition holds three equal non-empty values. -/
def hasWinningLine (gameState : List Cell) : Prop :=
  ∃ l ∈ winningConditions, ∃ p, lineHolds gameState l p

instance (gameState : List Cell) (l : Nat × Nat × Nat) (p : Player) :
    Decidable (lineHolds gameState l p) := by
  unfold lineHolds; infer_instance

instance (gameState : List Cell) : Decidable (hasWinningLine gameState) :=
  decidable_of_iff
    (∃ l ∈ winningConditions, lineHolds gameState l Player.X ∨ lineHolds gameState l Player.O)
    (by
      unfold hasWinningLine
      constructor
      · rintro ⟨l, hl, h | h⟩
        · exact ⟨l, hl, Player.X, h⟩
        · exact ⟨l, hl, Player.O, h⟩
      · rintro ⟨l, hl, p, h⟩
        cases p
        · exact ⟨l, hl, Or.inl h⟩
        · exact ⟨l, hl, Or.inr h⟩)

/-- The number of marks of player `p` on a board. -/
def countMarks (p : Player) (gameState : List Cell) : Nat :=
  gameState.count (Cell.mark p)

/-! ## Closed forms of the mutually recursive functions

The results the three functions return once the call-depth budget suffices; the
lemmas `endTurn_eq`, `handleResultValidation_eq` and `makeCellActive_eq` prove that
the recursive definitions compute exactly these. -/

/-- The three assignments of `endTurn` before the pick. -/
def switchPlayer (s : State) : State :=
  { s with currentPlayer := s.currentPlayer.other,
           playerTurnDisplay := Message.currentPlayerMessage s.currentPlayer.other,
           statusDisplay := Message.currentPlayerMessage s.currentPlayer.other }

/-- The branch of `makeCellActive` for an index other than `-1`. -/
def activateCell (s : State) (index : Int) : State :=
  startReactionTimer
    { s with currentActiveCellIndex := index,
             cells := jsModify (setClickable true) s.cells index }

/-- The two game-ending branches of `handleResultValidation`. -/
def declareResult (s : State) : State :=
  if roundWon s.gameState then
    endGame { s with statusDisplay := Message.winningMessage s.currentPlayer }
  else endGame { s with statusDisplay := Message.drawMessage }

/-- What `endTurn` returns. -/
def endTurnResult (s : State) (rnd : Nat → Nat) : State :=
  if !s.gameActive then s
  else if (pickRandomEmptyCell s.gameState rnd).1 = -1 then declareResult (switchPlayer s)
  else activateCell (switchPlayer s) (pickRandomEmptyCell s.gameState rnd).1

/-- What `handleResultValidation` returns. -/
def handleResultValidationResult (s : State) (rnd : Nat → Nat) : State :=
  if roundWon s.gameState ∨ (!s.gameState.contains Cell.empty) = true then declareResult s
  else endTurnResult s rnd

/-- What `makeCellActive` returns. -/
def makeCellActiveResult (s : State) (index : Int) (rnd : Nat → Nat) : State :=
  if index = -1 then handleResultValidationResult s rnd else activateCell s index

/-- The assignments of `handleCellPlayed` before it calls `handleResultValidation`. -/
def playMark (s : State) (clickedCellIndex : Nat) : State :=
  { s with
    timers := (clearInterval s s.reactionTimerInterval).timers,
    gameState := s.gameState.set clickedCellIndex (Cell.mark s.currentPlayer),
    cells := jsModify (addPlayerClass s.currentPlayer)
      (jsModify (setInnerHTML (Cell.mark s.currentPlayer))
        (jsModify (setClickable false) s.cells s.currentActiveCellIndex) clickedCellIndex)
      clickedCellIndex }

/-- What the click listener returns. -/
def cellClickResult (s : State) (index : Nat) (rnd : Nat → Nat) : State :=
  if !s.gameActive then s
  else if (index : Int) = s.currentActiveCellIndex ∧ s.gameState[index]? = some Cell.empty then
    handleResultValidationResult (playMark s index) rnd
  else if s.gameState[index]? ≠ some Cell.empty then
    (setTimer { s with statusDisplay := Message.spotTaken } TimerKind.revert).1
  else
    (setTimer { s with statusDisplay := Message.wrongCell } TimerKind.revert).1

/-- What the firing of timer `id` returns. -/
def fireTimerResult (s : State) (id : Nat) (rnd : Nat → Nat) : State :=
  match s.timers.lookup id with
  | none => s
  | some TimerKind.countdown => countdownTick s
  | some TimerKind.skip =>
    endTurnResult { s with timers := s.timers.filter (fun t => t.1 ≠ id) } rnd
  | some TimerKind.revert =>
    { s with timers := s.timers.filter (fun t => t.1 ≠ id),
             statusDisplay := Message.currentPlayerMessage s.currentPlayer }

/-- What `startGame` returns. -/
def startGameResult (s : State) (rnd : Nat → Nat) : State :=
  makeCellActiveResult (resetGame s) (pickRandomEmptyCell (resetGame s).gameState rnd).1
    (pickRandomEmptyCell (resetGame s).gameState rnd).2

/-- What one event leads to. -/
def stepResult (s : State) (e : Event) (rnd : Nat → Nat) : State :=
  match e with
  | Event.click index => cellClickResult s index rnd
  | Event.fire id => fireTimerResult s id rnd
  | Event.start => startGameResult s rnd

/-! ## Concrete states, invariants and skip-free reachability -/

/-- A constant oracle: every draw gives `k`. -/
def constRnd (k : Nat) : Nat → Nat := fun _ => k

/-- A running game on the board `[X,X,X,O,O,"","","",""]`. -/
def rowWonState : State :=
  { initialState with
    gameActive := true,
    gameState := [Cell.mark Player.X, Cell.mark Player.X, Cell.mark Player.X,
                  Cell.mark Player.O, Cell.mark Player.O, Cell.empty,
                  Cell.empty, Cell.empty, Cell.empty],
    currentActiveCellIndex := 2 }

/-- A running game on a full board without a winning line: `[X,O,X,X,O,O,O,X,X]`. -/
def fullDrawState : State :=
  { initialState with
    gameActive := true,
    gameState := [Cell.mark Player.X, Cell.mark Player.O, Cell.mark Player.X,
                  Cell.mark Player.X, Cell.mark Player.O, Cell.mark Player.O,
                  Cell.mark Player.O, Cell.mark Player.X, Cell.mark Player.X],
    currentActiveCellIndex := 8 }

/-- A running game with one mark, `[X,"","","","","","","",""]`, X still to move on. -/
def oneMarkState : State :=
  { initialState with
    gameActive := true,
    gameState := [Cell.mark Player.X, Cell.empty, Cell.empty, Cell.empty, Cell.empty,
                  Cell.empty, Cell.empty, Cell.empty, Cell.empty],
    currentActiveCellIndex := 0 }

/-- A cell element without text or classes. -/
def blankCell : CellElem :=
  { innerHTML := Cell.empty, x := false, o := false, clickable := false }

/-- The state after `startGame` on the initial page when the draw picks cell 4:
empty board, player X, cell 4 active, countdown 3 with interval 1 pending. -/
def startedState : State :=
  { initialState with
    gameActive := true,
    reactionTimerInterval := some 1,
    currentActiveCellIndex := 4,
    playerTurnDisplay := Message.currentPlayerMessage Player.X,
    statusDisplay := Message.currentPlayerMessage Player.X,
    cells := [blankCell, blankCell, blankCell, blankCell, { blankCell with clickable := true },
              blankCell, blankCell, blankCell, blankCell],
    startButtonHidden := true,
    timers := [(1, TimerKind.countdown)],
    nextTimerId := 2 }

/-- A finished game: X has won on `[X,X,X,O,O,"","","",""]`, and a countdown, a deferred
`endTurn` and a status revert are pending. -/
def wonState : State :=
  { rowWonState with
    gameActive := false,
    statusDisplay := Message.winningMessage Player.X,
    startButtonHidden := true,
    restartButtonHidden := false,
    timers := [(1, TimerKind.countdown), (2, TimerKind.skip), (3, TimerKind.revert)],
    nextTimerId := 4 }

/-- Clicks and firings of each kind of timer, without a start. -/
def gameOverEvents : List (Event × (Nat → Nat)) :=
  [(Event.click 2, constRnd 0), (Event.fire 1, constRnd 0), (Event.fire 2, constRnd 0),
   (Event.fire 3, constRnd 0), (Event.click 5, constRnd 0)]

/-- The state after the countdown of `startedState` has expired (three ticks): the
time-up message is shown and the deferred `endTurn` (timer 2) is pending. -/
def expiredState : State :=
  { startedState with
    currentReactionTime := 0,
    statusDisplay := Message.timeUpMessage Player.X,
    reactionTimerText := 0,
    reactionTimerDanger := true,
    timers := [(2, TimerKind.skip)],
    nextTimerId := 3 }

/-- Every pending timer carries a handle that has already been issued. -/
def timersIssued (s : State) : Prop := ∀ t ∈ s.timers, t.1 < s.nextTimerId

/-- The invariant of the reachable states: the board has nine cells; while the game
is active the active cell is an empty cell of the board and no winning condition
holds; pending timers carry issued handles. -/
def Inv (s : State) : Prop :=
  s.gameState.length = 9 ∧
  (s.gameActive = true →
    ∃ i : Nat, s.currentActiveCellIndex = (i : Int) ∧ s.gameState[i]? = some Cell.empty) ∧
  (s.gameActive = true → roundWon s.gameState = false) ∧
  timersIssued s

/-- The state after two ticks of the countdown of `startedState`: one second left. -/
def lastSecondState : State :=
  { startedState with
    currentReactionTime := 1,
    reactionTimerText := 1,
    reactionTimerDanger := true }

/-- A cell element showing the mark of X. -/
def xCell : CellElem :=
  { innerHTML := Cell.mark Player.X, x := true, o := false, clickable := false }

/-- The state after: start (cell 4 active), X plays cell 4, the turn of O expires and is
skipped, X plays cell 0. Two X, no O, O to move on cell 1. -/
def twoXState : State :=
  { startedState with
    currentPlayer := Player.O,
    gameState := [Cell.mark Player.X, Cell.empty, Cell.empty, Cell.empty, Cell.mark Player.X,
                  Cell.empty, Cell.empty, Cell.empty, Cell.empty],
    reactionTimerInterval := some 5,
    currentActiveCellIndex := 1,
    playerTurnDisplay := Message.currentPlayerMessage Player.O,
    statusDisplay := Message.currentPlayerMessage Player.O,
    cells := [xCell, { blankCell with clickable := true }, blankCell, blankCell, xCell,
              blankCell, blankCell, blankCell, blankCell],
    timers := [(5, TimerKind.countdown)],
    nextTimerId := 6 }

/-- The events leading from `startedState` to `twoXState`. -/
def skipTrace : List (Event × (Nat → Nat)) :=
  [(Event.click 4, constRnd 0), (Event.fire 2, constRnd 0), (Event.fire 2, constRnd 0),
   (Event.fire 2, constRnd 0), (Event.fire 3, constRnd 0), (Event.click 0, constRnd 0)]

/-- The state after start (cell 4 active) and X playing cell 4: O to move on cell 0. -/
def oneXState : State :=
  { startedState with
    currentPlayer := Player.O,
    gameState := [Cell.empty, Cell.empty, Cell.empty, Cell.empty, Cell.mark Player.X,
                  Cell.empty, Cell.empty, Cell.empty, Cell.empty],
    reactionTimerInterval := some 2,
    currentActiveCellIndex := 0,
    playerTurnDisplay := Message.currentPlayerMessage Player.O,
    statusDisplay := Message.currentPlayerMessage Player.O,
    cells := [{ blankCell with clickable := true }, blankCell, blankCell, blankCell, xCell,
              blankCell, blankCell, blankCell, blankCell],
    timers := [(2, TimerKind.countdown)],
    nextTimerId := 3 }

/-- The states reached from a `startGame` by clicks and by firings of timers other than
a deferred `endTurn`: the games in which no turn has been skipped. -/
inductive ReachableNoSkip : State → Prop where
  | start (fuel : Nat) (s : State) (rnd : Nat → Nat) (s1 : State) :
      startGame fuel s rnd = some s1 → ReachableNoSkip s1
  | click (fuel : Nat) (s : State) (i : Nat) (rnd : Nat → Nat) (s1 : State) :
      ReachableNoSkip s → cellClick fuel s i rnd = some s1 → ReachableNoSkip s1
  | fire (fuel : Nat) (s : State) (id : Nat) (rnd : Nat → Nat) (s1 : State) :
      ReachableNoSkip s → s.timers.lookup id ≠ some TimerKind.skip →
      fireTimer fuel s id rnd = some s1 → ReachableNoSkip s1

/-- The marks follow the alternation of turns: while the game runs, X is to move with
as many X as O, or O is to move with one X more; after the end one of the two holds. -/
def marksAlternate (s : State) : Prop :=
  (s.gameActive = true →
    (s.currentPlayer = Player.X ∧
      countMarks Player.X s.gameState = countMarks Player.O s.gameState) ∨
    (s.currentPlayer = Player.O ∧
      countMarks Player.X s.gameState = countMarks Player.O s.gameState + 1)) ∧
  (s.gameActive = false →
    countMarks Player.X s.gameState = countMarks Player.O s.gameState ∨
    countMarks Player.X s.gameState = countMarks Player.O s.gameState + 1)

/-- A cell element showing the mark of O. -/
def oCell : CellElem :=
  { innerHTML := Cell.mark Player.O, x := false, o := true, clickable := false }

/-- The events of a game that leads to the board `[X,X,"",O,O,"","","",""]`. -/
def rowTrace : List (Event × (Nat → Nat)) :=
  [(Event.start, constRnd 0), (Event.click 0, constRnd 2), (Event.click 3, constRnd 0),
   (Event.click 1, constRnd 1), (Event.click 4, constRnd 0)]

/-- The state `rowTrace` leads to from the initial page: board `[X,X,"",O,O,"","","",""]`,
X to move, cell 2 active. -/
def rowOpenState : State :=
  { startedState with
    gameState := [Cell.mark Player.X, Cell.mark Player.X, Cell.empty,
                  Cell.mark Player.O, Cell.mark Player.O, Cell.empty,
                  Cell.empty, Cell.empty, Cell.empty],
    reactionTimerInterval := some 5,
    currentActiveCellIndex := 2,
    cells := [xCell, xCell, { blankCell with clickable := true }, oCell, oCell,
              blankCell, blankCell, blankCell, blankCell],
    timers := [(5, TimerKind.countdown)],
    nextTimerId := 6 }

/-- The state after X clicks cell 2 in `rowOpenState`: the row `[0,1,2]` is complete,
the win of X is announced and the game is over. -/
def rowClosedState : State :=
  { rowOpenState with
    gameActive := false,
    gameState := [Cell.mark Player.X, Cell.mark Player.X, Cell.mark Player.X,
                  Cell.mark Player.O, Cell.mark Player.O, Cell.empty,
                  Cell.empty, Cell.empty, Cell.empty],
    statusDisplay := Message.winningMessage Player.X,
    cells := [xCell, xCell, xCell, oCell, oCell, blankCell, blankCell, blankCell, blankCell],
    restartButtonHidden := false,
    timers := [] }

/-- The state after the deferred `endTurn` of `expiredState` when the draw picks cell 0:
O is to move on cell 0, and cell 4, active in the skipped turn, still carries
`clickable`. -/
def twoHighlightsState : State :=
  { expiredState with
    currentPlayer := Player.O,
    currentReactionTime := 3,
    reactionTimerInterval := some 3,
    currentActiveCellIndex := 0,
    playerTurnDisplay := Message.currentPlayerMessage Player.O,
    statusDisplay := Message.currentPlayerMessage Player.O,
    reactionTimerText := 3,
    reactionTimerDanger := false,
    cells := [{ blankCell with clickable := true }, blankCell, blankCell, blankCell,
              { blankCell with clickable := true }, blankCell, blankCell, blankCell, blankCell],
    timers := [(3, TimerKind.countdown)],
    nextTimerId := 4 }

/-- A whole game: start on cell 8, the first turn of X expires and is skipped, then the
players click the cells 0 to 6 in turn and O completes the diagonal `[2,4,6]`. -/
def staleTrace : List (Event × (Nat → Nat)) :=
  [(Event.start, constRnd 8), (Event.fire 1, constRnd 0), (Event.fire 1, constRnd 0),
   (Event.fire 1, constRnd 0), (Event.fire 2, constRnd 0), (Event.click 0, constRnd 0),
   (Event.click 1, constRnd 0), (Event.click 2, constRnd 0), (Event.click 3, constRnd 0),
   (Event.click 4, constRnd 0), (Event.click 5, constRnd 0), (Event.click 6, constRnd 0)]

/-- The page has a cell element at `index`: `cells[index]` is not `undefined`. -/
def hasCell (s : State) (index : Int) : Prop := (jsGet s.cells index).isSome = true

instance (s : State) (index : Int) : Decidable (hasCell s index) := by
  unfold hasCell; infer_instance

/-- The page has a cell element for every index of the board, as the page with nine
cells has. -/
def boardHasCells (s : State) : Prop := s.gameState.length ≤ s.cells.length

instance (s : State) : Decidable (boardHasCells s) := by
  unfold boardHasCells; infer_instance

/-- The pending countdown intervals among the pending timers. -/
def pendingCountdowns (timers : List (Nat × TimerKind)) : List (Nat × TimerKind) :=
  timers.filter (fun t => t.2 = TimerKind.countdown)

/-- At most one countdown is pending, and it is the one whose handle is stored in
`reactionTimerInterval`. -/
def countdownStored (s : State) : Prop :=
  pendingCountdowns s.timers = [] ∨
    ∃ h, s.reactionTimerInterval = some h ∧
      pendingCountdowns s.timers = [(h, TimerKind.countdown)]

/-- The invariant of the countdown: at most one countdown is pending, under the stored
handle; the countdown value lies in 0..3 and is at least 1 while a countdown is
pending. -/
def TimerInv (s : State) : Prop :=
  countdownStored s ∧ 0 ≤ s.currentReactionTime ∧ s.currentReactionTime ≤ 3 ∧
    (pendingCountdowns s.timers ≠ [] → 1 ≤ s.currentReactionTime)

/-- The part of `TimerInv` that holds in the middle of an event, before the next
countdown is started. -/
def TimerPre (s : State) : Prop :=
  countdownStored s ∧ 0 ≤ s.currentReactionTime ∧ s.currentReactionTime ≤ 3

/-- The number of events of a run that change the board: the accepted clicks. -/
def acceptedClicks (fuel : Nat) (s : State) : List (Event × (Nat → Nat)) → Nat
  | [] => 0
  | (e, rnd) :: es =>
    match step fuel s e rnd with
    | none => 0
    | some s1 =>
      (if s1.gameState = s.gameState then 0 else 1) + acceptedClicks fuel s1 es

/-- The board does not hold a completed line of X together with a completed line of O. -/
def noTwoWinners (gameState : List Cell) : Prop :=
  ¬ ((∃ l ∈ winningConditions, lineHolds gameState l Player.X) ∧
     (∃ l ∈ winningConditions, lineHolds gameState l Player.O))

/-! ## Lemmas -/

theorem mem_emptyCellsFrom (b : List Cell) : ∀ (i n : Nat),
    n ∈ emptyCellsFrom i b ↔ ∃ j, n = i + j ∧ b[j]? = some Cell.empty := by
  induction b with
  | nil => intro i n; simp [emptyCellsFrom]
  | cons c cs ih =>
    intro i n
    unfold emptyCellsFrom
    constructor
    · intro h
      split at h
      · rcases List.mem_cons.mp h with h | h
        · exact ⟨0, by omega, by simp [*]⟩
        · obtain ⟨j, hj, hb⟩ := (ih (i + 1) n).mp h
          exact ⟨j + 1, by omega, by simpa using hb⟩
      · obtain ⟨j, hj, hb⟩ := (ih (i + 1) n).mp h
        exact ⟨j + 1, by omega, by simpa using hb⟩
    · rintro ⟨j, hj, hb⟩
      cases j with
      | zero =>
        have hc : c = Cell.empty := by simpa using hb
        simp [hc, hj]
      | succ j =>
        have : n ∈ emptyCellsFrom (i + 1) cs := (ih (i + 1) n).mpr ⟨j, by omega, by simpa using hb⟩
        split
        · exact List.mem_cons_of_mem _ this
        · exact this

theorem mem_emptyCells (b : List Cell) (n : Nat) :
    n ∈ emptyCells b ↔ b[n]? = some Cell.empty := by
  unfold emptyCells
  rw [mem_emptyCellsFrom]
  constructor
  · rintro ⟨j, hj, hb⟩
    have : n = j := by omega
    rw [this]; exact hb
  · intro h; exact ⟨n, by omega, h⟩

theorem emptyCells_length_eq_zero (b : List Cell) :
    (emptyCells b).length = 0 ↔ Cell.empty ∉ b := by
  rw [List.length_eq_zero]
  constructor
  · intro h hm
    obtain ⟨n, hn⟩ := List.mem_iff_getElem?.mp hm
    have : n ∈ emptyCells b := (mem_emptyCells b n).mpr hn
    rw [h] at this; exact absurd this (List.not_mem_nil _)
  · intro h
    apply List.eq_nil_iff_forall_not_mem.mpr
    intro n hn
    exact h (List.mem_iff_getElem?.mpr ⟨n, (mem_emptyCells b n).mp hn⟩)

theorem pickRandomEmptyCell_eq_neg_one (b : List Cell) (rnd : Nat → Nat) :
    (pickRandomEmptyCell b rnd).1 = -1 ↔ Cell.empty ∉ b := by
  unfold pickRandomEmptyCell
  split
  · rename_i h
    simp [(emptyCells_length_eq_zero b).mp h]
  · rename_i h
    have hm : ¬ Cell.empty ∉ b := fun hn => h ((emptyCells_length_eq_zero b).mpr hn)
    constructor
    · intro h1
      simp only at h1
      omega
    · intro h1; exact absurd h1 hm

theorem pickRandomEmptyCell_of_mem (b : List Cell) (rnd : Nat → Nat) (h : Cell.empty ∈ b) :
    ∃ i : Nat, pickRandomEmptyCell b rnd = ((i : Int), fun n => rnd (n + 1)) ∧
      b[i]? = some Cell.empty := by
  have hlen : ¬ (emptyCells b).length = 0 := fun h0 => (emptyCells_length_eq_zero b).mp h0 h
  unfold pickRandomEmptyCell
  rw [dif_neg hlen]
  exact ⟨_, rfl, (mem_emptyCells b _).mp (List.get_mem _ _ _)⟩

theorem pickRandomEmptyCell_of_not_mem (b : List Cell) (rnd : Nat → Nat) (h : Cell.empty ∉ b) :
    pickRandomEmptyCell b rnd = (-1, rnd) := by
  unfold pickRandomEmptyCell
  rw [dif_pos ((emptyCells_length_eq_zero b).mpr h)]

theorem winningConditions_lt : ∀ l ∈ winningConditions, l.1 < 9 ∧ l.2.1 < 9 ∧ l.2.2 < 9 := by
  decide

theorem roundWonLoop_iff (b : List Cell) (ls : List (Nat × Nat × Nat)) :
    roundWonLoop b ls = true ↔
      ∃ l ∈ ls, ¬ (b[l.1]? = some Cell.empty ∨ b[l.2.1]? = some Cell.empty ∨
          b[l.2.2]? = some Cell.empty) ∧ b[l.1]? = b[l.2.1]? ∧ b[l.2.1]? = b[l.2.2]? := by
  induction ls with
  | nil => simp [roundWonLoop]
  | cons l rest ih =>
    unfold roundWonLoop
    simp only [List.mem_cons, exists_eq_or_imp]
    split
    · rename_i h
      rw [ih]
      constructor
      · intro h1; exact Or.inr h1
      · rintro (h1 | h1)
        · exact absurd h h1.1
        · exact h1
    · rename_i h
      split
      · rename_i h2
        simp only [true_iff]
        exact Or.inl ⟨h, h2⟩
      · rename_i h2
        rw [ih]
        constructor
        · intro h1; exact Or.inr h1
        · rintro (h1 | h1)
          · exact absurd h1.2 h2
          · exact h1

theorem roundWon_iff (b : List Cell) (h9 : b.length = 9) :
    roundWon b = true ↔ hasWinningLine b := by
  unfold roundWon hasWinningLine lineHolds
  rw [roundWonLoop_iff]
  constructor
  · rintro ⟨l, hl, hne, h1, h2⟩
    refine ⟨l, hl, ?_⟩
    obtain ⟨ha, hb, hc⟩ := winningConditions_lt l hl
    have hx : b[l.1]? = some b[l.1] := List.getElem?_eq_getElem (by omega)
    cases hv : b[l.1] with
    | empty => rw [hv] at hx; exact absurd (Or.inl hx) hne
    | mark p =>
      rw [hv] at hx
      exact ⟨p, hx, by rw [← h1, hx], by rw [← h2, ← h1, hx]⟩
  · rintro ⟨l, hl, p, h1, h2, h3⟩
    refine ⟨l, hl, ?_, by rw [h1, h2], by rw [h2, h3]⟩
    rw [h1, h2, h3]
    simp

theorem roundWon_eq_false_iff (b : List Cell) (h9 : b.length = 9) :
    roundWon b = false ↔ ¬ hasWinningLine b := by
  rw [← roundWon_iff b h9]; simp

theorem contains_empty_iff (b : List Cell) : b.contains Cell.empty = true ↔ Cell.empty ∈ b := by
  simp

theorem makeCellActive_succ (fuel : Nat) (s : State) (index : Int) (rnd : Nat → Nat) :
    makeCellActive (fuel + 1) s index rnd =
      if index = -1 then handleResultValidation fuel s rnd else some (activateCell s index) := by
  rw [makeCellActive]; rfl

theorem handleResultValidation_succ (fuel : Nat) (s : State) (rnd : Nat → Nat) :
    handleResultValidation (fuel + 1) s rnd =
      if roundWon s.gameState ∨ (!s.gameState.contains Cell.empty) = true then
        some (declareResult s)
      else endTurn fuel s rnd := by
  rw [handleResultValidation]
  unfold declareResult
  by_cases h1 : roundWon s.gameState = true
  · simp [h1]
  · by_cases h2 : (!s.gameState.contains Cell.empty) = true
    · simp [h1, h2]
    · simp only [h1, h2, or_self, if_false, Bool.false_eq_true]

theorem endTurn_succ (fuel : Nat) (s : State) (rnd : Nat → Nat) :
    endTurn (fuel + 1) s rnd =
      if (!s.gameActive) = true then some s
      else if (pickRandomEmptyCell s.gameState rnd).1 = -1 then
        handleResultValidation fuel (switchPlayer s) (pickRandomEmptyCell s.gameState rnd).2
      else makeCellActive fuel (switchPlayer s) (pickRandomEmptyCell s.gameState rnd).1
        (pickRandomEmptyCell s.gameState rnd).2 := by
  rw [endTurn]; rfl

theorem switchPlayer_gameState (s : State) : (switchPlayer s).gameState = s.gameState := rfl

theorem endTurn_eq (fuel : Nat) (s : State) (rnd : Nat → Nat) :
    endTurn (fuel + 2) s rnd = some (endTurnResult s rnd) := by
  rw [endTurn_succ]
  unfold endTurnResult
  by_cases h1 : (!s.gameActive) = true
  · simp only [h1, if_true]
  · simp only [h1, if_false]
    by_cases h2 : (pickRandomEmptyCell s.gameState rnd).1 = -1
    · simp only [h2, if_true]
      rw [handleResultValidation_succ]
      have hfull : Cell.empty ∉ s.gameState := (pickRandomEmptyCell_eq_neg_one _ _).mp h2
      have : (!(switchPlayer s).gameState.contains Cell.empty) = true := by
        rw [switchPlayer_gameState]; simpa using hfull
      rw [if_pos (Or.inr this)]
      simp
    · simp only [h2, if_false]
      rw [makeCellActive_succ]
      simp [h2]

theorem handleResultValidation_eq (fuel : Nat) (s : State) (rnd : Nat → Nat) :
    handleResultValidation (fuel + 3) s rnd = some (handleResultValidationResult s rnd) := by
  rw [handleResultValidation_succ]
  unfold handleResultValidationResult
  split
  · rfl
  · exact endTurn_eq fuel s rnd

theorem makeCellActive_eq (fuel : Nat) (s : State) (index : Int) (rnd : Nat → Nat) :
    makeCellActive (fuel + 4) s index rnd = some (makeCellActiveResult s index rnd) := by
  rw [makeCellActive_succ]
  unfold makeCellActiveResult
  split
  · exact handleResultValidation_eq fuel s rnd
  · rfl

theorem fuel_mono : ∀ fuel : Nat,
    (∀ s index rnd s1, makeCellActive fuel s index rnd = some s1 →
      makeCellActive (fuel + 1) s index rnd = some s1) ∧
    (∀ s rnd s1, handleResultValidation fuel s rnd = some s1 →
      handleResultValidation (fuel + 1) s rnd = some s1) ∧
    (∀ s rnd s1, endTurn fuel s rnd = some s1 → endTurn (fuel + 1) s rnd = some s1) := by
  intro fuel
  induction fuel with
  | zero =>
    refine ⟨?_, ?_, ?_⟩
    · intro s index rnd s1 h; simp [makeCellActive] at h
    · intro s rnd s1 h; simp [handleResultValidation] at h
    · intro s rnd s1 h; simp [endTurn] at h
  | succ n ih =>
    obtain ⟨ih1, ih2, ih3⟩ := ih
    refine ⟨?_, ?_, ?_⟩
    · intro s index rnd s1 h
      rw [makeCellActive_succ] at h ⊢
      split at h
      · rename_i hi; rw [if_pos hi]; exact ih2 _ _ _ h
      · rename_i hi; rw [if_neg hi]; exact h
    · intro s rnd s1 h
      rw [handleResultValidation_succ] at h ⊢
      split at h
      · rename_i hi; rw [if_pos hi]; exact h
      · rename_i hi; rw [if_neg hi]; exact ih3 _ _ _ h
    · intro s rnd s1 h
      rw [endTurn_succ] at h ⊢
      split at h
      · rename_i hi; rw [if_pos hi]; exact h
      · rename_i hi
        rw [if_neg hi]
        split at h
        · rename_i hj; rw [if_pos hj]; exact ih2 _ _ _ h
        · rename_i hj; rw [if_neg hj]; exact ih1 _ _ _ _ h

theorem endTurn_mono (k fuel : Nat) (s : State) (rnd : Nat → Nat) (s1 : State)
    (h : endTurn fuel s rnd = some s1) : endTurn (fuel + k) s rnd = some s1 := by
  induction k with
  | zero => exact h
  | succ k ih => exact (fuel_mono (fuel + k)).2.2 _ _ _ ih

theorem handleResultValidation_mono (k fuel : Nat) (s : State) (rnd : Nat → Nat) (s1 : State)
    (h : handleResultValidation fuel s rnd = some s1) :
    handleResultValidation (fuel + k) s rnd = some s1 := by
  induction k with
  | zero => exact h
  | succ k ih => exact (fuel_mono (fuel + k)).2.1 _ _ _ ih

theorem makeCellActive_mono (k fuel : Nat) (s : State) (index : Int) (rnd : Nat → Nat)
    (s1 : State) (h : makeCellActive fuel s index rnd = some s1) :
    makeCellActive (fuel + k) s index rnd = some s1 := by
  induction k with
  | zero => exact h
  | succ k ih => exact (fuel_mono (fuel + k)).1 _ _ _ _ ih

theorem endTurn_of_some (fuel : Nat) (s : State) (rnd : Nat → Nat) (s1 : State)
    (h : endTurn fuel s rnd = some s1) : s1 = endTurnResult s rnd := by
  have h1 := endTurn_mono 2 fuel s rnd s1 h
  rw [endTurn_eq] at h1
  exact (Option.some.inj h1).symm

theorem handleResultValidation_of_some (fuel : Nat) (s : State) (rnd : Nat → Nat) (s1 : State)
    (h : handleResultValidation fuel s rnd = some s1) :
    s1 = handleResultValidationResult s rnd := by
  have h1 := handleResultValidation_mono 3 fuel s rnd s1 h
  rw [handleResultValidation_eq] at h1
  exact (Option.some.inj h1).symm

theorem makeCellActive_of_some (fuel : Nat) (s : State) (index : Int) (rnd : Nat → Nat)
    (s1 : State) (h : makeCellActive fuel s index rnd = some s1) :
    s1 = makeCellActiveResult s index rnd := by
  have h1 := makeCellActive_mono 4 fuel s index rnd s1 h
  rw [makeCellActive_eq] at h1
  exact (Option.some.inj h1).symm

theorem handleCellPlayed_eq (fuel : Nat) (s : State) (i : Nat) (rnd : Nat → Nat) :
    handleCellPlayed fuel s i rnd =
      if (!s.gameActive) = true then some s
      else handleResultValidation fuel (playMark s i) rnd := by
  unfold handleCellPlayed playMark
  simp [clearInterval]

theorem startGame_eq (fuel : Nat) (s : State) (rnd : Nat → Nat) :
    startGame fuel s rnd =
      makeCellActive fuel (resetGame s) (pickRandomEmptyCell (resetGame s).gameState rnd).1
        (pickRandomEmptyCell (resetGame s).gameState rnd).2 := by
  rfl

theorem cellClick_eq (fuel : Nat) (s : State) (i : Nat) (rnd : Nat → Nat) :
    cellClick (fuel + 3) s i rnd = some (cellClickResult s i rnd) := by
  unfold cellClick cellClickResult
  split
  · rfl
  · rename_i h
    split
    · rw [handleCellPlayed_eq, if_neg h]
      exact handleResultValidation_eq fuel _ rnd
    · split <;> rfl

theorem cellClick_of_some (fuel : Nat) (s : State) (i : Nat) (rnd : Nat → Nat) (s1 : State)
    (h : cellClick fuel s i rnd = some s1) : s1 = cellClickResult s i rnd := by
  unfold cellClick at h
  unfold cellClickResult
  split at h
  · rename_i h1; rw [if_pos h1]; exact (Option.some.inj h).symm
  · rename_i h1
    rw [if_neg h1]
    split at h
    · rename_i h2
      rw [if_pos h2]
      rw [handleCellPlayed_eq, if_neg h1] at h
      exact handleResultValidation_of_some _ _ _ _ h
    · rename_i h2
      rw [if_neg h2]
      split at h
      · rename_i h3; rw [if_pos h3]; exact (Option.some.inj h).symm
      · rename_i h3; rw [if_neg h3]; exact (Option.some.inj h).symm

theorem fireTimer_eq (fuel : Nat) (s : State) (id : Nat) (rnd : Nat → Nat) :
    fireTimer (fuel + 2) s id rnd = some (fireTimerResult s id rnd) := by
  unfold fireTimer fireTimerResult
  split
  · rfl
  · rfl
  · exact endTurn_eq fuel _ rnd
  · rfl

theorem fireTimer_of_some (fuel : Nat) (s : State) (id : Nat) (rnd : Nat → Nat) (s1 : State)
    (h : fireTimer fuel s id rnd = some s1) : s1 = fireTimerResult s id rnd := by
  unfold fireTimer at h
  unfold fireTimerResult
  split at h
  · exact (Option.some.inj h).symm
  · exact (Option.some.inj h).symm
  · exact endTurn_of_some _ _ _ _ h
  · exact (Option.some.inj h).symm

theorem startGame_eq_result (fuel : Nat) (s : State) (rnd : Nat → Nat) :
    startGame (fuel + 4) s rnd = some (startGameResult s rnd) := by
  rw [startGame_eq]
  exact makeCellActive_eq fuel _ _ _

theorem startGame_of_some (fuel : Nat) (s : State) (rnd : Nat → Nat) (s1 : State)
    (h : startGame fuel s rnd = some s1) : s1 = startGameResult s rnd := by
  rw [startGame_eq] at h
  exact makeCellActive_of_some _ _ _ _ _ h

theorem step_eq (fuel : Nat) (s : State) (e : Event) (rnd : Nat → Nat) :
    step (fuel + 4) s e rnd = some (stepResult s e rnd) := by
  cases e with
  | click i => exact cellClick_eq (fuel + 1) s i rnd
  | fire id => exact fireTimer_eq (fuel + 2) s id rnd
  | start => exact startGame_eq_result fuel s rnd

theorem step_of_some (fuel : Nat) (s : State) (e : Event) (rnd : Nat → Nat) (s1 : State)
    (h : step fuel s e rnd = some s1) : s1 = stepResult s e rnd := by
  cases e with
  | click i => exact cellClick_of_some fuel s i rnd s1 h
  | fire id => exact fireTimer_of_some fuel s id rnd s1 h
  | start => exact startGame_of_some fuel s rnd s1 h

theorem endGame_eq (s : State) :
    endGame s =
      { s with
        gameActive := false,
        timers := clearTimer s.timers s.reactionTimerInterval,
        cells :=
          if s.currentActiveCellIndex ≠ -1 ∧ (jsGet s.cells s.currentActiveCellIndex).isSome then
            jsModify (setClickable false) s.cells s.currentActiveCellIndex
          else s.cells,
        startButtonHidden := true,
        restartButtonHidden := false } := by
  unfold endGame clearInterval
  simp only
  split <;> rfl

theorem startReactionTimer_eq (s : State) :
    startReactionTimer s =
      { s with
        timers := clearTimer s.timers s.reactionTimerInterval ++ [(s.nextTimerId, TimerKind.countdown)],
        nextTimerId := s.nextTimerId + 1,
        currentReactionTime := 3,
        reactionTimerText := 3,
        reactionTimerDanger := false,
        reactionTimerInterval := some s.nextTimerId } := rfl

theorem handleTimeUp_eq (s : State) :
    handleTimeUp s =
      if (!s.gameActive) = true then s
      else { s with
        statusDisplay := Message.timeUpMessage s.currentPlayer,
        timers := s.timers ++ [(s.nextTimerId, TimerKind.skip)],
        nextTimerId := s.nextTimerId + 1 } := rfl

@[simp] theorem endGame_gameActive (s : State) : (endGame s).gameActive = false := by
  rw [endGame_eq]
@[simp] theorem endGame_currentPlayer (s : State) :
    (endGame s).currentPlayer = s.currentPlayer := by rw [endGame_eq]
@[simp] theorem endGame_gameState (s : State) : (endGame s).gameState = s.gameState := by
  rw [endGame_eq]
@[simp] theorem endGame_statusDisplay (s : State) :
    (endGame s).statusDisplay = s.statusDisplay := by rw [endGame_eq]
@[simp] theorem endGame_currentActiveCellIndex (s : State) :
    (endGame s).currentActiveCellIndex = s.currentActiveCellIndex := by rw [endGame_eq]
@[simp] theorem endGame_currentReactionTime (s : State) :
    (endGame s).currentReactionTime = s.currentReactionTime := by rw [endGame_eq]
@[simp] theorem endGame_nextTimerId (s : State) :
    (endGame s).nextTimerId = s.nextTimerId := by rw [endGame_eq]
@[simp] theorem endGame_timers (s : State) :
    (endGame s).timers = clearTimer s.timers s.reactionTimerInterval := by rw [endGame_eq]

theorem activateCell_statusDisplay (s : State) (i : Int) :
    (activateCell s i).statusDisplay = s.statusDisplay := rfl

theorem activateCell_currentPlayer (s : State) (i : Int) :
    (activateCell s i).currentPlayer = s.currentPlayer := rfl

/-- C1: on a board of 9 cells `handleResultValidation` declares a win (win message of
the current player, game ended) exactly when one of the 8 winning conditions holds
three equal non-empty values, whether or not the board is full; without such a line
it takes the draw or the next-turn branch and writes no win message. -/
theorem handleResultValidation_win_iff (s : State) (fuel : Nat) (rnd : Nat → Nat)
    (h9 : s.gameState.length = 9) :
    (roundWon s.gameState = true ↔ hasWinningLine s.gameState) ∧
    (hasWinningLine s.gameState →
      handleResultValidation (fuel + 1) s rnd =
        some (endGame { s with statusDisplay := Message.winningMessage s.currentPlayer }) ∧
      ∃ s1, handleResultValidation (fuel + 1) s rnd = some s1 ∧ s1.gameActive = false ∧
        s1.statusDisplay = Message.winningMessage s.currentPlayer) ∧
    (¬ hasWinningLine s.gameState →
      handleResultValidation (fuel + 1) s rnd =
        (if Cell.empty ∈ s.gameState then endTurn fuel s rnd
         else some (endGame { s with statusDisplay := Message.drawMessage })) ∧
      ∀ s1, handleResultValidation (fuel + 1) s rnd = some s1 →
        s1 = s ∨ s1.statusDisplay = Message.drawMessage ∨
          s1.statusDisplay = Message.currentPlayerMessage s1.currentPlayer) := by
  refine ⟨roundWon_iff _ h9, ?_, ?_⟩
  · intro hw
    have hr : roundWon s.gameState = true := (roundWon_iff _ h9).mpr hw
    have h1 : handleResultValidation (fuel + 1) s rnd =
        some (endGame { s with statusDisplay := Message.winningMessage s.currentPlayer }) := by
      rw [handleResultValidation_succ, if_pos (Or.inl hr)]
      unfold declareResult
      rw [if_pos hr]
    exact ⟨h1, _, h1, by simp, by simp⟩
  · intro hw
    have hr : ¬ roundWon s.gameState = true := fun h => hw ((roundWon_iff _ h9).mp h)
    have h1 : handleResultValidation (fuel + 1) s rnd =
        (if Cell.empty ∈ s.gameState then endTurn fuel s rnd
         else some (endGame { s with statusDisplay := Message.drawMessage })) := by
      rw [handleResultValidation_succ]
      by_cases hm : Cell.empty ∈ s.gameState
      · rw [if_pos hm, if_neg]
        simp [hr, hm]
      · rw [if_neg hm, if_pos]
        · unfold declareResult
          rw [if_neg hr]
        · simp [hm]
    refine ⟨h1, ?_⟩
    intro s1 hs1
    rw [h1] at hs1
    by_cases hm : Cell.empty ∈ s.gameState
    · rw [if_pos hm] at hs1
      have h2 := endTurn_of_some _ _ _ _ hs1
      unfold endTurnResult at h2
      by_cases ha : (!s.gameActive) = true
      · rw [if_pos ha] at h2; exact Or.inl h2
      · rw [if_neg ha, if_neg (fun h => (pickRandomEmptyCell_eq_neg_one _ rnd).mp h hm)] at h2
        right; right
        rw [h2, activateCell_statusDisplay, activateCell_currentPlayer]
        rfl
    · rw [if_neg hm] at hs1
      right; left
      rw [← Option.some.inj hs1]
      simp

/-- C1 at a concrete state: the row `[0,1,2]` of `rowWonState` holds three X. -/
theorem handleResultValidation_win_iff_witness :
    rowWonState.gameState.length = 9 ∧ roundWon rowWonState.gameState = true ∧
      ∃ s1, handleResultValidation 1 rowWonState (constRnd 0) = some s1 ∧
        s1.gameActive = false ∧ s1.statusDisplay = Message.winningMessage Player.X :=
  ⟨by decide,
   (handleResultValidation_win_iff rowWonState 0 (constRnd 0) (by decide)).1.mpr
     ⟨(0, 1, 2), by decide, Player.X, by decide⟩,
   ((handleResultValidation_win_iff rowWonState 0 (constRnd 0) (by decide)).2.1
     ⟨(0, 1, 2), by decide, Player.X, by decide⟩).2⟩

theorem activateCell_gameActive (s : State) (i : Int) :
    (activateCell s i).gameActive = s.gameActive := rfl

/-- C2: without a winning line, `handleResultValidation` on a full board of 9 cells ends
the game as a draw (game inactive, draw message, player and active cell untouched),
and on a board that still has an empty cell it does not end the game: it hands over
to `endTurn`, and the game stays as active as it was. -/
theorem handleResultValidation_draw_or_continue (s : State) (fuel : Nat) (rnd : Nat → Nat)
    (h9 : s.gameState.length = 9) (hno : ¬ hasWinningLine s.gameState) :
    (Cell.empty ∉ s.gameState →
      ∃ s1, handleResultValidation (fuel + 1) s rnd = some s1 ∧
        s1 = endGame { s with statusDisplay := Message.drawMessage } ∧
        s1.gameActive = false ∧ s1.statusDisplay = Message.drawMessage ∧
        s1.currentPlayer = s.currentPlayer ∧ s1.gameState = s.gameState ∧
        s1.currentActiveCellIndex = s.currentActiveCellIndex) ∧
    (Cell.empty ∈ s.gameState →
      handleResultValidation (fuel + 1) s rnd = endTurn fuel s rnd ∧
      ∃ s1, handleResultValidation (fuel + 3) s rnd = some s1 ∧
        s1.gameActive = s.gameActive ∧ s1.gameState = s.gameState) := by
  have hr : ¬ roundWon s.gameState = true := fun h => hno ((roundWon_iff _ h9).mp h)
  constructor
  · intro hfull
    refine ⟨_, ?_, rfl, by simp, by simp, by simp, by simp, by simp⟩
    rw [handleResultValidation_succ, if_pos]
    · unfold declareResult
      rw [if_neg hr]
    · simp [hfull]
  · intro hm
    have hc : ¬ (roundWon s.gameState = true ∨ (!s.gameState.contains Cell.empty) = true) := by
      simp [hr, hm]
    refine ⟨by rw [handleResultValidation_succ, if_neg hc], _,
      handleResultValidation_eq fuel s rnd, ?_, ?_⟩
    · unfold handleResultValidationResult endTurnResult
      rw [if_neg hc]
      by_cases ha : (!s.gameActive) = true
      · rw [if_pos ha]
      · rw [if_neg ha, if_neg (fun h => (pickRandomEmptyCell_eq_neg_one _ rnd).mp h hm)]
        rfl
    · unfold handleResultValidationResult endTurnResult
      rw [if_neg hc]
      by_cases ha : (!s.gameActive) = true
      · rw [if_pos ha]
      · rw [if_neg ha, if_neg (fun h => (pickRandomEmptyCell_eq_neg_one _ rnd).mp h hm)]
        rfl

/-- C2 at concrete states: a full board without a line is a draw, a board with one mark
goes on. -/
theorem handleResultValidation_draw_or_continue_witness :
    (fullDrawState.gameState.length = 9 ∧ ¬ hasWinningLine fullDrawState.gameState ∧
      ∃ s1, handleResultValidation 1 fullDrawState (constRnd 0) = some s1 ∧
        s1.gameActive = false ∧ s1.statusDisplay = Message.drawMessage) ∧
    (oneMarkState.gameState.length = 9 ∧ ¬ hasWinningLine oneMarkState.gameState ∧
      ∃ s1, handleResultValidation 3 oneMarkState (constRnd 0) = some s1 ∧
        s1.gameActive = true) :=
  ⟨⟨by decide, by decide,
    match (handleResultValidation_draw_or_continue fullDrawState 0 (constRnd 0)
      (by decide) (by decide)).1 (by decide) with
    | ⟨s1, h1, _, h2, h3, _⟩ => ⟨s1, h1, h2, h3⟩⟩,
   ⟨by decide, by decide,
    match (handleResultValidation_draw_or_continue oneMarkState 0 (constRnd 0)
      (by decide) (by decide)).2 (by decide) with
    | ⟨_, s1, h1, h2, _⟩ => ⟨s1, h1, h2⟩⟩⟩

@[simp] theorem activateCell_gameState (s : State) (i : Int) :
    (activateCell s i).gameState = s.gameState := rfl

@[simp] theorem activateCell_currentActiveCellIndex (s : State) (i : Int) :
    (activateCell s i).currentActiveCellIndex = i := rfl

@[simp] theorem activateCell_currentReactionTime (s : State) (i : Int) :
    (activateCell s i).currentReactionTime = 3 := rfl

@[simp] theorem declareResult_gameState (s : State) :
    (declareResult s).gameState = s.gameState := by
  unfold declareResult; split <;> simp

@[simp] theorem declareResult_gameActive (s : State) :
    (declareResult s).gameActive = false := by
  unfold declareResult; split <;> simp

@[simp] theorem declareResult_currentPlayer (s : State) :
    (declareResult s).currentPlayer = s.currentPlayer := by
  unfold declareResult; split <;> simp

@[simp] theorem endTurnResult_gameState (s : State) (rnd : Nat → Nat) :
    (endTurnResult s rnd).gameState = s.gameState := by
  unfold endTurnResult
  split
  · rfl
  · split
    · simp [switchPlayer_gameState]
    · simp [switchPlayer_gameState]

@[simp] theorem handleResultValidationResult_gameState (s : State) (rnd : Nat → Nat) :
    (handleResultValidationResult s rnd).gameState = s.gameState := by
  unfold handleResultValidationResult
  split <;> simp

@[simp] theorem makeCellActiveResult_gameState (s : State) (i : Int) (rnd : Nat → Nat) :
    (makeCellActiveResult s i rnd).gameState = s.gameState := by
  unfold makeCellActiveResult
  split <;> simp

/-- C3: in an active game a click on the active cell, when it is empty, writes the
current player (as it is before any flip) into that cell and into no other, and the
next thing it does is the win/draw check on the updated board: at that point the
active cell, the player and the timer handle are still the old ones and no draw has
been taken from the random source. -/
theorem cellClick_active_plays_mark (s : State) (i : Nat) (fuel : Nat) (rnd : Nat → Nat)
    (hA : s.gameActive = true) (hi : (i : Int) = s.currentActiveCellIndex)
    (he : s.gameState[i]? = some Cell.empty) :
    (∃ sm, cellClick fuel s i rnd = handleResultValidation fuel sm rnd ∧
      sm.gameState = s.gameState.set i (Cell.mark s.currentPlayer) ∧
      sm.gameState[i]? = some (Cell.mark s.currentPlayer) ∧
      (∀ j, j ≠ i → sm.gameState[j]? = s.gameState[j]?) ∧
      sm.currentPlayer = s.currentPlayer ∧
      sm.currentActiveCellIndex = s.currentActiveCellIndex ∧
      sm.gameActive = true ∧
      sm.reactionTimerInterval = s.reactionTimerInterval ∧
      sm.nextTimerId = s.nextTimerId) ∧
    (∃ s1, cellClick (fuel + 3) s i rnd = some s1 ∧
      s1.gameState[i]? = some (Cell.mark s.currentPlayer) ∧
      (∀ j, j ≠ i → s1.gameState[j]? = s.gameState[j]?)) := by
  have hlt : i < s.gameState.length := by
    by_contra hge
    rw [List.getElem?_eq_none (by omega)] at he
    exact absurd he (by simp)
  have hset : (s.gameState.set i (Cell.mark s.currentPlayer))[i]? =
      some (Cell.mark s.currentPlayer) := by
    rw [List.getElem?_set_self hlt]
  have hoth : ∀ j, j ≠ i →
      (s.gameState.set i (Cell.mark s.currentPlayer))[j]? = s.gameState[j]? := by
    intro j hj
    rw [List.getElem?_set_ne (Ne.symm hj)]
  constructor
  · refine ⟨playMark s i, ?_, rfl, hset, hoth, rfl, rfl, hA, rfl, rfl⟩
    unfold cellClick
    rw [if_neg (by simp [hA]), if_pos ⟨hi, he⟩, handleCellPlayed_eq, if_neg (by simp [hA])]
  · refine ⟨_, cellClick_eq fuel s i rnd, ?_, ?_⟩
    · unfold cellClickResult
      rw [if_neg (by simp [hA]), if_pos ⟨hi, he⟩, handleResultValidationResult_gameState]
      exact hset
    · unfold cellClickResult
      rw [if_neg (by simp [hA]), if_pos ⟨hi, he⟩, handleResultValidationResult_gameState]
      exact hoth


theorem startGame_initialState : startGame 4 initialState (constRnd 4) = some startedState := by
  decide!

theorem reachable_startedState : Reachable startedState :=
  Reachable.step 4 initialState Event.start (constRnd 4) startedState Reachable.init
    startGame_initialState

/-- C3 on the freshly started game: X clicks the active cell 4. -/
theorem cellClick_active_plays_mark_witness :
    startedState.gameActive = true ∧ ((4 : Nat) : Int) = startedState.currentActiveCellIndex ∧
      startedState.gameState[4]? = some Cell.empty ∧
      ∃ s1, cellClick 3 startedState 4 (constRnd 0) = some s1 ∧
        s1.gameState[4]? = some (Cell.mark Player.X) ∧
        (∀ j, j ≠ 4 → s1.gameState[j]? = startedState.gameState[j]?) :=
  ⟨by decide, by decide, by decide,
   (cellClick_active_plays_mark startedState 4 0 (constRnd 0) (by decide) (by decide)
     (by decide)).2⟩

/-- C4: a click on a cell other than the active one, empty or occupied, changes
nothing (game not active) or only the status text, together with the pending timeout
that will revert that text: board, player, active cell, game flag, countdown value,
interval handle and pending countdown are as before. -/
theorem cellClick_other_cell (s : State) (i : Nat) (fuel : Nat) (rnd : Nat → Nat)
    (hne : (i : Int) ≠ s.currentActiveCellIndex) :
    ∃ s1, cellClick fuel s i rnd = some s1 ∧
      (s1 = s ∨ ∃ m, s1 = { s with
          statusDisplay := m,
          timers := s.timers ++ [(s.nextTimerId, TimerKind.revert)],
          nextTimerId := s.nextTimerId + 1 }) ∧
      s1.gameState = s.gameState ∧ s1.currentPlayer = s.currentPlayer ∧
      s1.currentActiveCellIndex = s.currentActiveCellIndex ∧
      s1.gameActive = s.gameActive ∧
      s1.currentReactionTime = s.currentReactionTime ∧
      s1.reactionTimerInterval = s.reactionTimerInterval ∧
      s1.timers.filter (fun t => t.2 = TimerKind.countdown) =
        s.timers.filter (fun t => t.2 = TimerKind.countdown) ∧
      (s.gameActive = true →
        s1.statusDisplay =
          if s.gameState[i]? ≠ some Cell.empty then Message.spotTaken else Message.wrongCell) := by
  unfold cellClick
  by_cases hA : (!s.gameActive) = true
  · rw [if_pos hA]
    refine ⟨s, rfl, Or.inl rfl, rfl, rfl, rfl, rfl, rfl, rfl, rfl, ?_⟩
    intro h; simp [h] at hA
  · rw [if_neg hA, if_neg (fun h => hne h.1)]
    by_cases ht : s.gameState[i]? ≠ some Cell.empty
    · rw [if_pos ht]
      refine ⟨_, rfl, Or.inr ⟨Message.spotTaken, rfl⟩, rfl, rfl, rfl, rfl, rfl, rfl, ?_, ?_⟩
      · simp [setTimer, List.filter_append]
      · intro _; rw [if_pos ht]; rfl
    · rw [if_neg ht]
      refine ⟨_, rfl, Or.inr ⟨Message.wrongCell, rfl⟩, rfl, rfl, rfl, rfl, rfl, rfl, ?_, ?_⟩
      · simp [setTimer, List.filter_append]
      · intro _; rw [if_neg ht]; rfl

/-- C4 on the freshly started game (cell 4 active): a click on the empty cell 0. -/
theorem cellClick_other_cell_witness :
    ((0 : Nat) : Int) ≠ startedState.currentActiveCellIndex ∧
      ∃ s1, cellClick 0 startedState 0 (constRnd 0) = some s1 ∧
        s1.gameState = startedState.gameState ∧ s1.currentPlayer = startedState.currentPlayer ∧
        s1.currentActiveCellIndex = startedState.currentActiveCellIndex ∧
        s1.gameActive = startedState.gameActive ∧
        s1.currentReactionTime = startedState.currentReactionTime :=
  ⟨by decide,
   match cellClick_other_cell startedState 0 0 (constRnd 0) (by decide) with
   | ⟨s1, h, _, h1, h2, h3, h4, h5, _⟩ => ⟨s1, h, h1, h2, h3, h4, h5⟩⟩

theorem countdownTick_eq (s : State) :
    countdownTick s =
      if s.currentReactionTime - 1 ≤ 0 then
        handleTimeUp
          { s with
            currentReactionTime := s.currentReactionTime - 1,
            reactionTimerText := s.currentReactionTime - 1,
            reactionTimerDanger := true,
            timers := clearTimer s.timers s.reactionTimerInterval }
      else
        { s with
          currentReactionTime := s.currentReactionTime - 1,
          reactionTimerText := s.currentReactionTime - 1,
          reactionTimerDanger := if s.currentReactionTime - 1 ≤ 1 then true
                                 else s.reactionTimerDanger } := by
  unfold countdownTick clearInterval
  simp only
  by_cases h0 : s.currentReactionTime - 1 ≤ 0
  · have h1 : s.currentReactionTime - 1 ≤ 1 := by omega
    simp only [h0, h1, if_true]
  · by_cases h1 : s.currentReactionTime - 1 ≤ 1
    · simp only [h0, h1, if_true, if_false]
    · simp only [h0, h1, if_false]

@[simp] theorem handleTimeUp_gameState (s : State) : (handleTimeUp s).gameState = s.gameState := by
  rw [handleTimeUp_eq]; split <;> rfl
@[simp] theorem handleTimeUp_currentPlayer (s : State) :
    (handleTimeUp s).currentPlayer = s.currentPlayer := by
  rw [handleTimeUp_eq]; split <;> rfl
@[simp] theorem handleTimeUp_gameActive (s : State) :
    (handleTimeUp s).gameActive = s.gameActive := by
  rw [handleTimeUp_eq]; split <;> rfl
@[simp] theorem handleTimeUp_currentActiveCellIndex (s : State) :
    (handleTimeUp s).currentActiveCellIndex = s.currentActiveCellIndex := by
  rw [handleTimeUp_eq]; split <;> rfl

@[simp] theorem countdownTick_gameState (s : State) :
    (countdownTick s).gameState = s.gameState := by
  rw [countdownTick_eq]; split <;> simp
@[simp] theorem countdownTick_currentPlayer (s : State) :
    (countdownTick s).currentPlayer = s.currentPlayer := by
  rw [countdownTick_eq]; split <;> simp
@[simp] theorem countdownTick_gameActive (s : State) :
    (countdownTick s).gameActive = s.gameActive := by
  rw [countdownTick_eq]; split <;> simp
@[simp] theorem countdownTick_currentActiveCellIndex (s : State) :
    (countdownTick s).currentActiveCellIndex = s.currentActiveCellIndex := by
  rw [countdownTick_eq]; split <;> simp

theorem stepResult_inactive (s : State) (e : Event) (rnd : Nat → Nat)
    (hA : s.gameActive = false) (he : e ≠ Event.start) :
    (stepResult s e rnd).gameState = s.gameState ∧
      (stepResult s e rnd).currentPlayer = s.currentPlayer ∧
      (stepResult s e rnd).gameActive = false := by
  cases e with
  | click i =>
    have : stepResult s (Event.click i) rnd = s := by
      simp [stepResult, cellClickResult, hA]
    rw [this]; exact ⟨rfl, rfl, hA⟩
  | fire id =>
    simp only [stepResult, fireTimerResult]
    split
    · exact ⟨rfl, rfl, hA⟩
    · simp [hA]
    · simp [endTurnResult, hA]
    · exact ⟨rfl, rfl, hA⟩
  | start => exact absurd rfl he

theorem run_cons (fuel : Nat) (s : State) (e : Event) (rnd : Nat → Nat)
    (es : List (Event × (Nat → Nat))) :
    run fuel s ((e, rnd) :: es) =
      match step fuel s e rnd with
      | none => none
      | some s1 => run fuel s1 es := rfl

/-- C5: from a state in which the game is over (`gameActive` false, as `endGame` leaves
it), no sequence of cell clicks and timer firings (countdown ticks, deferred `endTurn`
continuations, status-revert timeouts) changes the board, the current player or the
game flag; only the start button's `startGame` is excluded. -/
theorem game_over_is_stable (fuel : Nat) (es : List (Event × (Nat → Nat))) (s : State)
    (hA : s.gameActive = false) (hns : ∀ e ∈ es, e.1 ≠ Event.start) :
    ∃ s1, run (fuel + 4) s es = some s1 ∧ s1.gameState = s.gameState ∧
      s1.currentPlayer = s.currentPlayer ∧ s1.gameActive = false := by
  induction es generalizing s with
  | nil => exact ⟨s, rfl, rfl, rfl, hA⟩
  | cons e es ih =>
    obtain ⟨e, rnd⟩ := e
    have he : e ≠ Event.start := hns (e, rnd) (List.mem_cons_self _ _)
    obtain ⟨h1, h2, h3⟩ := stepResult_inactive s e rnd hA he
    obtain ⟨s1, hr, g1, g2, g3⟩ := ih (stepResult s e rnd) h3
      (fun x hx => hns x (List.mem_cons_of_mem _ hx))
    refine ⟨s1, ?_, g1.trans h1, g2.trans h2, g3⟩
    rw [run_cons, step_eq]
    exact hr


/-- C5 on a won game with a pending timer of each kind. -/
theorem game_over_is_stable_witness :
    wonState.gameActive = false ∧ (∀ e ∈ gameOverEvents, e.1 ≠ Event.start) ∧
      ∃ s1, run 4 wonState gameOverEvents = some s1 ∧ s1.gameState = wonState.gameState ∧
        s1.currentPlayer = wonState.currentPlayer ∧ s1.gameActive = false :=
  ⟨by decide,
   fun e he => by
     simp only [gameOverEvents, List.mem_cons, List.mem_singleton] at he
     rcases he with rfl | rfl | rfl | rfl | rfl | he
     · decide
     · decide
     · decide
     · decide
     · decide
     · exact absurd he (List.not_mem_nil _),
   game_over_is_stable 0 gameOverEvents wonState (by decide) (fun e he => by
     simp only [gameOverEvents, List.mem_cons, List.mem_singleton] at he
     rcases he with rfl | rfl | rfl | rfl | rfl | he
     · decide
     · decide
     · decide
     · decide
     · decide
     · exact absurd he (List.not_mem_nil _))⟩

theorem reachable_run (fuel : Nat) (es : List (Event × (Nat → Nat))) :
    ∀ s s1, Reachable s → run fuel s es = some s1 → Reachable s1 := by
  induction es with
  | nil =>
    intro s s1 hs h
    have : s = s1 := Option.some.inj h
    rw [← this]; exact hs
  | cons e es ih =>
    intro s s1 hs h
    obtain ⟨e, rnd⟩ := e
    rw [run_cons] at h
    cases hstep : step fuel s e rnd with
    | none => rw [hstep] at h; exact absurd h (by simp)
    | some s2 =>
      rw [hstep] at h
      exact ih s2 s1 (Reachable.step fuel s e rnd s2 hs hstep) h

theorem run_startedState_expired :
    run 4 startedState
      [(Event.fire 1, constRnd 0), (Event.fire 1, constRnd 0), (Event.fire 1, constRnd 0)] =
      some expiredState := by
  decide!

theorem reachable_expiredState : Reachable expiredState :=
  reachable_run 4 _ _ _ reachable_startedState run_startedState_expired

/-- C6 fails on the code: in the reachable state `expiredState` the countdown has
expired (`handleTimeUp` has run, the time-up message is shown, the deferred `endTurn`
is pending as timer 2), yet a click on the active cell 4 is played: it writes X into
the board, flips the player to O and activates another cell; the deferred `endTurn`
then flips the player back to X. -/
theorem click_after_expiry_is_played :
    Reachable expiredState ∧
    expiredState.statusDisplay = Message.timeUpMessage Player.X ∧
    expiredState.timers.lookup 2 = some TimerKind.skip ∧
    ∃ s1 s2, cellClick 4 expiredState 4 (constRnd 0) = some s1 ∧
      s1.gameState ≠ expiredState.gameState ∧
      s1.gameState[4]? = some (Cell.mark Player.X) ∧
      s1.currentPlayer = Player.O ∧ expiredState.currentPlayer = Player.X ∧
      s1.currentActiveCellIndex = 0 ∧ expiredState.currentActiveCellIndex = 4 ∧
      fireTimer 4 s1 2 (constRnd 0) = some s2 ∧
      s2.currentPlayer = Player.X ∧ s2.gameState[4]? = some (Cell.mark Player.X) :=
  ⟨reachable_expiredState, by decide, by decide,
   (cellClick 4 expiredState 4 (constRnd 0)).getD initialState,
   ((cellClick 4 expiredState 4 (constRnd 0)).bind
     (fun s => fireTimer 4 s 2 (constRnd 0))).getD initialState,
   by decide!, by decide!, by decide!, by decide!, by decide, by decide!, by decide,
   by decide!, by decide!, by decide!⟩

theorem mem_clearTimer (timers : List (Nat × TimerKind)) (h : Option Nat) (t : Nat × TimerKind)
    (ht : t ∈ clearTimer timers h) : t ∈ timers := by
  cases h with
  | none => exact ht
  | some h => exact (List.mem_filter.mp ht).1

@[simp] theorem switchPlayer_gameActive (s : State) :
    (switchPlayer s).gameActive = s.gameActive := rfl
@[simp] theorem switchPlayer_timers (s : State) : (switchPlayer s).timers = s.timers := rfl
@[simp] theorem switchPlayer_nextTimerId (s : State) :
    (switchPlayer s).nextTimerId = s.nextTimerId := rfl
@[simp] theorem switchPlayer_reactionTimerInterval (s : State) :
    (switchPlayer s).reactionTimerInterval = s.reactionTimerInterval := rfl
@[simp] theorem switchPlayer_currentPlayer (s : State) :
    (switchPlayer s).currentPlayer = s.currentPlayer.other := rfl

@[simp] theorem activateCell_timers (s : State) (i : Int) :
    (activateCell s i).timers =
      clearTimer s.timers s.reactionTimerInterval ++ [(s.nextTimerId, TimerKind.countdown)] := rfl
@[simp] theorem activateCell_nextTimerId (s : State) (i : Int) :
    (activateCell s i).nextTimerId = s.nextTimerId + 1 := rfl

@[simp] theorem declareResult_timers (s : State) :
    (declareResult s).timers = clearTimer s.timers s.reactionTimerInterval := by
  unfold declareResult; split <;> simp
@[simp] theorem declareResult_nextTimerId (s : State) :
    (declareResult s).nextTimerId = s.nextTimerId := by
  unfold declareResult; split <;> simp

theorem timersIssued_activateCell (s : State) (i : Int) (h : timersIssued s) :
    timersIssued (activateCell s i) := by
  intro t ht
  rw [activateCell_timers] at ht
  rw [activateCell_nextTimerId]
  rcases List.mem_append.mp ht with ht | ht
  · have := h t (mem_clearTimer _ _ _ ht); omega
  · have : t = (s.nextTimerId, TimerKind.countdown) := by simpa using ht
    rw [this]; simp

theorem timersIssued_declareResult (s : State) (h : timersIssued s) :
    timersIssued (declareResult s) := by
  intro t ht
  rw [declareResult_timers] at ht
  rw [declareResult_nextTimerId]
  exact h t (mem_clearTimer _ _ _ ht)

/-- The three ways `endTurn` can go. -/
theorem endTurnResult_cases (s : State) (rnd : Nat → Nat) :
    (s.gameActive = false ∧ endTurnResult s rnd = s) ∨
    (s.gameActive = true ∧ Cell.empty ∉ s.gameState ∧
      endTurnResult s rnd = declareResult (switchPlayer s)) ∨
    (s.gameActive = true ∧ ∃ i : Nat, s.gameState[i]? = some Cell.empty ∧
      endTurnResult s rnd = activateCell (switchPlayer s) (i : Int)) := by
  unfold endTurnResult
  by_cases hA : s.gameActive = true
  · rw [if_neg (by simp [hA])]
    by_cases hm : Cell.empty ∈ s.gameState
    · right; right
      obtain ⟨i, hp, hi⟩ := pickRandomEmptyCell_of_mem s.gameState rnd hm
      refine ⟨hA, i, hi, ?_⟩
      rw [if_neg (fun h => (pickRandomEmptyCell_eq_neg_one _ rnd).mp h hm), hp]
    · right; left
      refine ⟨hA, hm, ?_⟩
      rw [if_pos ((pickRandomEmptyCell_eq_neg_one _ rnd).mpr hm)]
  · left
    have hA2 : s.gameActive = false := by simpa using hA
    exact ⟨hA2, by rw [if_pos (by simp [hA2])]⟩

/-- The two ways `handleResultValidation` can go. -/
theorem handleResultValidationResult_cases (s : State) (rnd : Nat → Nat) :
    ((roundWon s.gameState = true ∨ Cell.empty ∉ s.gameState) ∧
      handleResultValidationResult s rnd = declareResult s) ∨
    (roundWon s.gameState = false ∧ Cell.empty ∈ s.gameState ∧
      handleResultValidationResult s rnd = endTurnResult s rnd) := by
  unfold handleResultValidationResult
  by_cases hw : roundWon s.gameState = true
  · left; exact ⟨Or.inl hw, by rw [if_pos (Or.inl hw)]⟩
  · by_cases hm : Cell.empty ∈ s.gameState
    · right
      refine ⟨by simpa using hw, hm, ?_⟩
      rw [if_neg]
      simp [hw, hm]
    · left
      refine ⟨Or.inr hm, ?_⟩
      rw [if_pos]
      right; simp [hm]

theorem Inv_declareResult (s : State) (h9 : s.gameState.length = 9) (ht : timersIssued s) :
    Inv (declareResult s) := by
  refine ⟨by simpa using h9, ?_, ?_, timersIssued_declareResult s ht⟩
  · intro h; simp at h
  · intro h; simp at h

theorem Inv_endTurnResult_active (s : State) (rnd : Nat → Nat) (h9 : s.gameState.length = 9)
    (hw : roundWon s.gameState = false) (ht : timersIssued s) :
    s.gameActive = true → Inv (endTurnResult s rnd) := by
  intro hA
  rcases endTurnResult_cases s rnd with ⟨hA2, _⟩ | ⟨_, _, he⟩ | ⟨_, i, hi, he⟩
  · rw [hA] at hA2; exact absurd hA2 (by simp)
  · rw [he]; exact Inv_declareResult _ h9 ht
  · rw [he]
    refine ⟨h9, ?_, ?_, timersIssued_activateCell _ _ ht⟩
    · intro _; exact ⟨i, rfl, hi⟩
    · intro _; exact hw

theorem Inv_endTurnResult (s : State) (rnd : Nat → Nat) (h : Inv s) :
    Inv (endTurnResult s rnd) := by
  by_cases hA : s.gameActive = true
  · exact Inv_endTurnResult_active s rnd h.1 (h.2.2.1 hA) h.2.2.2 hA
  · have : endTurnResult s rnd = s := by
      unfold endTurnResult
      rw [if_pos (by simpa using hA)]
    rw [this]; exact h

theorem timersIssued_countdownTick (s : State) (h : timersIssued s) :
    timersIssued (countdownTick s) := by
  rw [countdownTick_eq]
  split
  · rw [handleTimeUp_eq]
    split
    · intro t ht; exact h t (mem_clearTimer _ _ _ ht)
    · intro t ht
      rcases List.mem_append.mp ht with ht | ht
      · have := h t (mem_clearTimer _ _ _ ht)
        show t.1 < s.nextTimerId + 1
        omega
      · have : t = (s.nextTimerId, TimerKind.skip) := by simpa using ht
        rw [this]
        show s.nextTimerId < s.nextTimerId + 1
        omega
  · exact h

theorem Inv_countdownTick (s : State) (h : Inv s) : Inv (countdownTick s) := by
  obtain ⟨h9, ha, hw, ht⟩ := h
  refine ⟨by simpa using h9, ?_, ?_, timersIssued_countdownTick s ht⟩
  · intro hA
    rw [countdownTick_gameActive] at hA
    rw [countdownTick_currentActiveCellIndex, countdownTick_gameState]
    exact ha hA
  · intro hA
    rw [countdownTick_gameActive] at hA
    rw [countdownTick_gameState]
    exact hw hA

theorem Inv_fireTimerResult (s : State) (id : Nat) (rnd : Nat → Nat) (h : Inv s) :
    Inv (fireTimerResult s id rnd) := by
  have hf : Inv { s with timers := s.timers.filter (fun t => t.1 ≠ id) } :=
    ⟨h.1, h.2.1, h.2.2.1, fun t ht => h.2.2.2 t (List.mem_filter.mp ht).1⟩
  unfold fireTimerResult
  split
  · exact h
  · exact Inv_countdownTick s h
  · exact Inv_endTurnResult _ rnd hf
  · exact ⟨h.1, h.2.1, h.2.2.1, fun t ht => h.2.2.2 t (List.mem_filter.mp ht).1⟩

theorem Inv_cellClickResult (s : State) (i : Nat) (rnd : Nat → Nat) (h : Inv s) :
    Inv (cellClickResult s i rnd) := by
  obtain ⟨h9, ha, hw, ht⟩ := h
  have hrev : ∀ m, Inv (setTimer { s with statusDisplay := m } TimerKind.revert).1 := by
    intro m
    refine ⟨h9, ha, hw, ?_⟩
    intro t hm
    rcases List.mem_append.mp hm with hm | hm
    · have := ht t hm
      show t.1 < s.nextTimerId + 1
      omega
    · have : t = (s.nextTimerId, TimerKind.revert) := by simpa using hm
      rw [this]
      show s.nextTimerId < s.nextTimerId + 1
      omega
  unfold cellClickResult
  split
  · exact ⟨h9, ha, hw, ht⟩
  · rename_i hA
    split
    · have hA2 : (playMark s i).gameActive = true := by simpa using hA
      have hm9 : (playMark s i).gameState.length = 9 := by
        show (s.gameState.set i _).length = 9
        rw [List.length_set]; exact h9
      have hmt : timersIssued (playMark s i) := fun t hm => ht t (mem_clearTimer _ _ _ hm)
      rcases handleResultValidationResult_cases (playMark s i) rnd with ⟨_, he⟩ | ⟨hnw, _, he⟩
      · rw [he]; exact Inv_declareResult _ hm9 hmt
      · rw [he]; exact Inv_endTurnResult_active _ rnd hm9 hnw hmt hA2
    · split
      · exact hrev _
      · exact hrev _

theorem startGameResult_eq (s : State) (rnd : Nat → Nat) :
    ∃ i : Nat, i < 9 ∧ startGameResult s rnd = activateCell (resetGame s) (i : Int) := by
  have hm : Cell.empty ∈ (resetGame s).gameState := by
    show Cell.empty ∈ [Cell.empty, Cell.empty, Cell.empty, Cell.empty, Cell.empty,
      Cell.empty, Cell.empty, Cell.empty, Cell.empty]
    simp
  obtain ⟨i, hp, hi⟩ := pickRandomEmptyCell_of_mem (resetGame s).gameState rnd hm
  have hlt : i < 9 := by
    by_contra hge
    have h9 : (resetGame s).gameState.length = 9 := rfl
    rw [List.getElem?_eq_none (by omega)] at hi
    exact absurd hi (by simp)
  refine ⟨i, hlt, ?_⟩
  unfold startGameResult makeCellActiveResult
  rw [hp]
  rw [if_neg (by omega)]

theorem Inv_startGameResult (s : State) (rnd : Nat → Nat) (h : timersIssued s) :
    Inv (startGameResult s rnd) := by
  obtain ⟨i, hlt, he⟩ := startGameResult_eq s rnd
  rw [he]
  have hr : timersIssued (resetGame s) := fun t hm => h t (mem_clearTimer _ _ _ hm)
  refine ⟨rfl, ?_, ?_, timersIssued_activateCell _ _ hr⟩
  · intro _
    refine ⟨i, rfl, ?_⟩
    show [Cell.empty, Cell.empty, Cell.empty, Cell.empty, Cell.empty,
      Cell.empty, Cell.empty, Cell.empty, Cell.empty][i]? = some Cell.empty
    interval_cases i <;> rfl
  · intro _
    show roundWon [Cell.empty, Cell.empty, Cell.empty, Cell.empty, Cell.empty,
      Cell.empty, Cell.empty, Cell.empty, Cell.empty] = false
    decide

theorem Inv_stepResult (s : State) (e : Event) (rnd : Nat → Nat) (h : Inv s) :
    Inv (stepResult s e rnd) := by
  cases e with
  | click i => exact Inv_cellClickResult s i rnd h
  | fire id => exact Inv_fireTimerResult s id rnd h
  | start => exact Inv_startGameResult s rnd h.2.2.2

theorem Inv_initialState : Inv initialState := by
  refine ⟨rfl, ?_, ?_, ?_⟩
  · intro h; exact absurd h (by decide)
  · intro h; exact absurd h (by decide)
  · intro t ht; exact absurd ht (List.not_mem_nil _)

theorem Inv_of_reachable (s : State) (h : Reachable s) : Inv s := by
  induction h with
  | init => exact Inv_initialState
  | step fuel s e rnd s1 _ hstep ih =>
    rw [step_of_some fuel s e rnd s1 hstep]
    exact Inv_stepResult s e rnd ih

theorem lookup_append_fresh (l : List (Nat × TimerKind)) (k : Nat) (v : TimerKind)
    (h : ∀ t ∈ l, t.1 < k) : (l ++ [(k, v)]).lookup k = some v := by
  induction l with
  | nil => simp [List.lookup]
  | cons t l ih =>
    obtain ⟨a, b⟩ := t
    have ha : a < k := h (a, b) (List.mem_cons_self _ _)
    have hne : (k == a) = false := by simp; omega
    rw [List.cons_append, List.lookup_cons, hne]
    exact ih (fun t ht => h t (List.mem_cons_of_mem _ ht))

theorem countdownTick_expire (s : State) (hA : s.gameActive = true)
    (h0 : s.currentReactionTime - 1 ≤ 0) :
    countdownTick s =
      { s with
        currentReactionTime := s.currentReactionTime - 1,
        reactionTimerText := s.currentReactionTime - 1,
        reactionTimerDanger := true,
        statusDisplay := Message.timeUpMessage s.currentPlayer,
        timers := clearTimer s.timers s.reactionTimerInterval ++
          [(s.nextTimerId, TimerKind.skip)],
        nextTimerId := s.nextTimerId + 1 } := by
  rw [countdownTick_eq, if_pos h0, handleTimeUp_eq, if_neg (by simp [hA])]

/-- C7: in a reachable state with the game active, when a tick of the countdown brings
the value to 0 and the deferred continuation is the next event: the tick only shows
the time-up message and schedules the continuation; the continuation leaves the
board as it was, flips the player exactly once and activates a cell that is empty on
that board with the countdown back at 3. The result is the activation branch of
`makeCellActive` applied after the flip, so neither call of `handleResultValidation`
is taken: the game stays active and the status names the next player. -/
theorem expiry_skips_turn (s : State) (id fuel : Nat) (rnd0 rnd : Nat → Nat)
    (hR : Reachable s) (hA : s.gameActive = true)
    (hid : s.timers.lookup id = some TimerKind.countdown)
    (h0 : s.currentReactionTime - 1 ≤ 0) :
    ∃ (s1 s2 : State) (i : Nat),
      fireTimer fuel s id rnd0 = some s1 ∧
      s1.gameState = s.gameState ∧ s1.currentPlayer = s.currentPlayer ∧
      s1.gameActive = true ∧
      s1.statusDisplay = Message.timeUpMessage s.currentPlayer ∧
      s1.timers.lookup s.nextTimerId = some TimerKind.skip ∧
      fireTimer (fuel + 2) s1 s.nextTimerId rnd = some s2 ∧
      s2 = activateCell
        (switchPlayer { s1 with timers := s1.timers.filter (fun t => t.1 ≠ s.nextTimerId) })
        (i : Int) ∧
      s2.gameState = s.gameState ∧
      s2.currentPlayer = s.currentPlayer.other ∧ s2.currentPlayer ≠ s.currentPlayer ∧
      s2.currentActiveCellIndex = (i : Int) ∧ s.gameState[i]? = some Cell.empty ∧
      s2.currentReactionTime = 3 ∧ s2.gameActive = true ∧
      s2.statusDisplay = Message.currentPlayerMessage s.currentPlayer.other := by
  obtain ⟨_, ha, _, ht⟩ := Inv_of_reachable s hR
  obtain ⟨j, _, hj⟩ := ha hA
  have hm : Cell.empty ∈ s.gameState := List.mem_iff_getElem?.mpr ⟨j, hj⟩
  have hs1 : fireTimer fuel s id rnd0 = some (countdownTick s) := by
    unfold fireTimer; rw [hid]
  have hlook : (countdownTick s).timers.lookup s.nextTimerId = some TimerKind.skip := by
    rw [countdownTick_expire s hA h0]
    exact lookup_append_fresh _ _ _ (fun t h => ht t (mem_clearTimer _ _ _ h))
  have hs2 : fireTimer (fuel + 2) (countdownTick s) s.nextTimerId rnd =
      some (endTurnResult { countdownTick s with
        timers := (countdownTick s).timers.filter (fun t => t.1 ≠ s.nextTimerId) } rnd) := by
    rw [fireTimer_eq]
    unfold fireTimerResult
    rw [hlook]
  rcases endTurnResult_cases { countdownTick s with
      timers := (countdownTick s).timers.filter (fun t => t.1 ≠ s.nextTimerId) } rnd with
    ⟨hA2, _⟩ | ⟨_, hfull, _⟩ | ⟨_, i, hi, he⟩
  · have : (countdownTick s).gameActive = false := hA2
    rw [countdownTick_gameActive, hA] at this
    exact absurd this (by simp)
  · have : Cell.empty ∉ (countdownTick s).gameState := hfull
    rw [countdownTick_gameState] at this
    exact absurd hm this
  · have hi2 : (countdownTick s).gameState[i]? = some Cell.empty := hi
    rw [countdownTick_gameState] at hi2
    have hp : s.currentPlayer.other ≠ s.currentPlayer := by
      cases s.currentPlayer <;> decide
    refine ⟨countdownTick s, _, i, hs1, by simp, by simp, by simpa using hA, ?_, hlook, hs2, he,
      ?_, ?_, ?_, ?_, hi2, ?_, ?_, ?_⟩
    · rw [countdownTick_expire s hA h0]
    · rw [he]; simp [switchPlayer_gameState]
    · rw [he]; simp [activateCell_currentPlayer]
    · rw [he]; simpa [activateCell_currentPlayer] using hp
    · rw [he]; simp
    · rw [he]; simp
    · rw [he]; simpa [activateCell_gameActive] using hA
    · rw [he, activateCell_statusDisplay]
      show Message.currentPlayerMessage (countdownTick s).currentPlayer.other = _
      rw [countdownTick_currentPlayer]


theorem run_startedState_lastSecond :
    run 4 startedState [(Event.fire 1, constRnd 0), (Event.fire 1, constRnd 0)] =
      some lastSecondState := by
  decide!

theorem reachable_lastSecondState : Reachable lastSecondState :=
  reachable_run 4 _ _ _ reachable_startedState run_startedState_lastSecond

/-- C7 on the started game with one second left: the third tick and the deferred
continuation leave the board empty, hand the turn to O and activate an empty cell. -/
theorem expiry_skips_turn_witness :
    Reachable lastSecondState ∧ lastSecondState.gameActive = true ∧
      lastSecondState.timers.lookup 1 = some TimerKind.countdown ∧
      lastSecondState.currentReactionTime - 1 ≤ 0 ∧
      ∃ (s1 s2 : State) (i : Nat),
        fireTimer 0 lastSecondState 1 (constRnd 0) = some s1 ∧
        fireTimer 2 s1 2 (constRnd 0) = some s2 ∧
        s2.gameState = lastSecondState.gameState ∧
        s2.currentPlayer = Player.O ∧
        s2.currentActiveCellIndex = (i : Int) ∧
        lastSecondState.gameState[i]? = some Cell.empty ∧
        s2.currentReactionTime = 3 ∧ s2.gameActive = true :=
  ⟨reachable_lastSecondState, by decide, by decide, by decide,
   match expiry_skips_turn lastSecondState 1 0 (constRnd 0) (constRnd 0)
     reachable_lastSecondState (by decide) (by decide) (by decide) with
   | ⟨s1, s2, i, h1, _, _, _, _, _, h2, _, h3, h4, _, h5, h6, h7, h8, _⟩ =>
     ⟨s1, s2, i, h1, h2, h3, h4, h5, h6, h7, h8⟩⟩

theorem jsModify_natCast {α : Type} (f : α → α) (xs : List α) (i : Nat) :
    jsModify f xs (i : Int) = xs.modify f i := by
  unfold jsModify
  rw [if_neg (by omega)]
  rfl

theorem activateCell_cells (s : State) (i : Int) :
    (activateCell s i).cells = jsModify (setClickable true) s.cells i := rfl

theorem activateCell_reactionTimerText (s : State) (i : Int) :
    (activateCell s i).reactionTimerText = 3 := rfl

theorem resetGame_cells (s : State) :
    (resetGame s).cells = List.map (fun c => clearClasses (setInnerHTML Cell.empty c)) s.cells :=
  rfl

theorem resetGame_gameState (s : State) :
    (resetGame s).gameState =
      [Cell.empty, Cell.empty, Cell.empty, Cell.empty, Cell.empty,
       Cell.empty, Cell.empty, Cell.empty, Cell.empty] := rfl

theorem resetGame_currentPlayer (s : State) : (resetGame s).currentPlayer = Player.X := rfl

theorem resetGame_gameActive (s : State) : (resetGame s).gameActive = true := rfl

theorem clickable_after_reset (cells : List CellElem) (i j : Nat) (hj : j < cells.length) :
    ∃ c, ((List.map (fun c => clearClasses (setInnerHTML Cell.empty c)) cells).modify
        (setClickable true) i)[j]? = some c ∧ (c.clickable = true ↔ j = i) := by
  rw [List.getElem?_modify, List.getElem?_map, List.getElem?_eq_getElem hj]
  by_cases hij : i = j
  · refine ⟨setClickable true (clearClasses (setInnerHTML Cell.empty cells[j])), ?_, ?_⟩
    · simp [hij]
    · simp [setClickable, hij]
  · refine ⟨clearClasses (setInnerHTML Cell.empty cells[j]), ?_, ?_⟩
    · simp [hij]
    · simp [clearClasses, setInnerHTML]
      omega

/-- C8: from any prior state of a page with nine cells and for every outcome of the
random draw, `startGame` returns with an empty board of nine cells, player X, the game
active, an active cell index in 0..8, the countdown at 3, and the `clickable` class on
exactly one cell, the active one. -/
theorem startGame_resets (s : State) (fuel : Nat) (rnd : Nat → Nat)
    (hc : s.cells.length = 9) :
    ∃ (s1 : State) (i : Nat), startGame (fuel + 1) s rnd = some s1 ∧
      s1.gameState = [Cell.empty, Cell.empty, Cell.empty, Cell.empty, Cell.empty,
                      Cell.empty, Cell.empty, Cell.empty, Cell.empty] ∧
      s1.currentPlayer = Player.X ∧ s1.gameActive = true ∧
      s1.currentActiveCellIndex = (i : Int) ∧ i < 9 ∧
      s1.currentReactionTime = 3 ∧ s1.reactionTimerText = 3 ∧
      s1.cells.length = 9 ∧
      ∀ j, j < 9 → ∃ c, s1.cells[j]? = some c ∧ (c.clickable = true ↔ j = i) := by
  obtain ⟨i, hlt, he⟩ := startGameResult_eq s rnd
  have hs : startGame (fuel + 1) s rnd = some (activateCell (resetGame s) (i : Int)) := by
    have h4 := startGame_eq_result fuel s rnd
    rw [he] at h4
    rw [startGame_eq, makeCellActive_succ]
    rw [startGame_eq, makeCellActive_succ] at h4
    split
    · rename_i hneg
      rw [if_pos hneg] at h4
      have := (pickRandomEmptyCell_eq_neg_one _ _).mp hneg
      exact absurd (by simp [resetGame] : Cell.empty ∈ (resetGame s).gameState) this
    · rename_i hneg
      rw [if_neg hneg] at h4
      exact h4
  have hcells : (activateCell (resetGame s) (i : Int)).cells =
      (List.map (fun c => clearClasses (setInnerHTML Cell.empty c)) s.cells).modify
        (setClickable true) i := by
    rw [activateCell_cells, jsModify_natCast, resetGame_cells]
  refine ⟨_, i, hs, ?_, ?_, ?_, ?_, hlt, ?_, ?_, ?_, ?_⟩
  · rw [activateCell_gameState, resetGame_gameState]
  · rw [activateCell_currentPlayer, resetGame_currentPlayer]
  · rw [activateCell_gameActive, resetGame_gameActive]
  · rw [activateCell_currentActiveCellIndex]
  · rw [activateCell_currentReactionTime]
  · rw [activateCell_reactionTimerText]
  · rw [hcells, List.length_modify, List.length_map, hc]
  · intro j hj
    rw [hcells]
    exact clickable_after_reset s.cells i j (by omega)

/-- C8 from a finished game: restarting `wonState`. -/
theorem startGame_resets_witness :
    wonState.cells.length = 9 ∧
      ∃ (s1 : State) (i : Nat), startGame 1 wonState (constRnd 7) = some s1 ∧
        s1.gameState = [Cell.empty, Cell.empty, Cell.empty, Cell.empty, Cell.empty,
                        Cell.empty, Cell.empty, Cell.empty, Cell.empty] ∧
        s1.currentPlayer = Player.X ∧ s1.gameActive = true ∧
        s1.currentActiveCellIndex = (i : Int) ∧ i < 9 ∧
        s1.currentReactionTime = 3 :=
  ⟨by decide,
   match startGame_resets wonState 0 (constRnd 7) (by decide) with
   | ⟨s1, i, h1, h2, h3, h4, h5, h6, h7, _⟩ => ⟨s1, i, h1, h2, h3, h4, h5, h6, h7⟩⟩

theorem run_startedState_twoX : run 4 startedState skipTrace = some twoXState := by
  decide!

theorem reachable_twoXState : Reachable twoXState :=
  reachable_run 4 _ _ _ reachable_startedState run_startedState_twoX

/-- C9 fails on the code: after start, a mark of X, a skipped turn of O and a second
mark of X, the reachable state `twoXState` holds two X and no O. -/
theorem marks_differ_by_two_after_skip :
    Reachable twoXState ∧ run 4 startedState skipTrace = some twoXState ∧
      countMarks Player.X twoXState.gameState = 2 ∧
      countMarks Player.O twoXState.gameState = 0 ∧
      ¬ (countMarks Player.X twoXState.gameState ≤ countMarks Player.O twoXState.gameState + 1) :=
  ⟨reachable_twoXState, run_startedState_twoX, by decide, by decide, by decide⟩

theorem count_set_of_empty (b : List Cell) (p q : Player) :
    ∀ i : Nat, b[i]? = some Cell.empty →
      (b.set i (Cell.mark p)).count (Cell.mark q) =
        b.count (Cell.mark q) + (if p = q then 1 else 0) := by
  induction b with
  | nil => intro i h; simp at h
  | cons c cs ih =>
    intro i h
    cases i with
    | zero =>
      have hc : c = Cell.empty := by simpa using h
      subst hc
      rw [List.set_cons_zero, List.count_cons, List.count_cons]
      by_cases hpq : p = q
      · simp [hpq]
      · simp [hpq]
    | succ i =>
      have h2 : cs[i]? = some Cell.empty := by simpa using h
      rw [List.set_cons_succ, List.count_cons, List.count_cons, ih i h2]
      omega

theorem marksAlternate_of_fields (s s1 : State) (h : marksAlternate s)
    (h1 : s1.gameState = s.gameState) (h2 : s1.currentPlayer = s.currentPlayer)
    (h3 : s1.gameActive = s.gameActive) : marksAlternate s1 := by
  unfold marksAlternate at h ⊢
  rw [h1, h2, h3]; exact h

theorem playMark_counts (s : State) (i : Nat) (he : s.gameState[i]? = some Cell.empty)
    (hA : s.gameActive = true) (h : marksAlternate s) :
    (s.currentPlayer = Player.X ∧
      countMarks Player.X (playMark s i).gameState =
        countMarks Player.O (playMark s i).gameState + 1) ∨
    (s.currentPlayer = Player.O ∧
      countMarks Player.X (playMark s i).gameState =
        countMarks Player.O (playMark s i).gameState) := by
  have hg : (playMark s i).gameState = s.gameState.set i (Cell.mark s.currentPlayer) := rfl
  rw [hg]
  unfold countMarks
  rw [count_set_of_empty _ _ _ i he, count_set_of_empty _ _ _ i he]
  rcases h.1 hA with ⟨hp, hc⟩ | ⟨hp, hc⟩
  · left
    unfold countMarks at hc
    refine ⟨hp, ?_⟩
    rw [hp, hc]; simp
  · right
    unfold countMarks at hc
    refine ⟨hp, ?_⟩
    rw [hp, hc]; simp

theorem marksAlternate_cellClickResult (s : State) (i : Nat) (rnd : Nat → Nat)
    (h : marksAlternate s) : marksAlternate (cellClickResult s i rnd) := by
  unfold cellClickResult
  split
  · exact h
  · rename_i hA
    have hA1 : s.gameActive = true := by simpa using hA
    split
    · rename_i hc
      have hcnt := playMark_counts s i hc.2 hA1 h
      have hpm : (playMark s i).currentPlayer = s.currentPlayer := rfl
      have hover : ∀ s1 : State, s1.gameActive = false →
          s1.gameState = (playMark s i).gameState → marksAlternate s1 := by
        intro s1 g1 g2
        refine ⟨fun g => by rw [g1] at g; exact absurd g (by simp), fun _ => ?_⟩
        rw [g2]
        rcases hcnt with ⟨_, hc⟩ | ⟨_, hc⟩
        · exact Or.inr hc
        · exact Or.inl hc
      rcases handleResultValidationResult_cases (playMark s i) rnd with ⟨_, he⟩ | ⟨_, _, he⟩
      · rw [he]; exact hover _ (by simp) (by simp)
      · rw [he]
        rcases endTurnResult_cases (playMark s i) rnd with
          ⟨hA2, _⟩ | ⟨_, _, he2⟩ | ⟨_, k, _, he2⟩
        · have : s.gameActive = false := hA2
          rw [hA1] at this; exact absurd this (by simp)
        · rw [he2]; exact hover _ (by simp) (by simp [switchPlayer_gameState])
        · rw [he2]
          refine ⟨fun _ => ?_, fun g => ?_⟩
          · rw [activateCell_gameState, switchPlayer_gameState, activateCell_currentPlayer,
              switchPlayer_currentPlayer, hpm]
            rcases hcnt with ⟨hp, hc⟩ | ⟨hp, hc⟩
            · right; exact ⟨by rw [hp]; rfl, hc⟩
            · left; exact ⟨by rw [hp]; rfl, hc⟩
          · have : (playMark s i).gameActive = false := g
            have h3 : s.gameActive = false := this
            rw [hA1] at h3; exact absurd h3 (by simp)
    · split
      · exact marksAlternate_of_fields s _ h rfl rfl rfl
      · exact marksAlternate_of_fields s _ h rfl rfl rfl

theorem marksAlternate_fireTimerResult (s : State) (id : Nat) (rnd : Nat → Nat)
    (h : marksAlternate s) (hns : s.timers.lookup id ≠ some TimerKind.skip) :
    marksAlternate (fireTimerResult s id rnd) := by
  unfold fireTimerResult
  split
  · exact h
  · exact marksAlternate_of_fields s _ h (by simp) (by simp) (by simp)
  · rename_i hk; exact absurd hk hns
  · exact marksAlternate_of_fields s _ h rfl rfl rfl

theorem marksAlternate_startGameResult (s : State) (rnd : Nat → Nat) :
    marksAlternate (startGameResult s rnd) := by
  obtain ⟨i, _, he⟩ := startGameResult_eq s rnd
  rw [he]
  refine ⟨fun _ => Or.inl ⟨rfl, ?_⟩, fun g => ?_⟩
  · rw [activateCell_gameState, resetGame_gameState]
    decide
  · rw [activateCell_gameActive, resetGame_gameActive] at g
    exact absurd g (by simp)

theorem marksAlternate_of_reachableNoSkip (s : State) (h : ReachableNoSkip s) :
    marksAlternate s := by
  induction h with
  | start fuel s rnd s1 hs =>
    rw [startGame_of_some fuel s rnd s1 hs]
    exact marksAlternate_startGameResult s rnd
  | click fuel s i rnd s1 _ hs ih =>
    rw [cellClick_of_some fuel s i rnd s1 hs]
    exact marksAlternate_cellClickResult s i rnd ih
  | fire fuel s id rnd s1 _ hns hs ih =>
    rw [fireTimer_of_some fuel s id rnd s1 hs]
    exact marksAlternate_fireTimerResult s id rnd ih hns

/-- C9, amended: in every state reached from a `startGame` by clicks, countdown ticks
and status reverts, as long as no deferred `endTurn` of an expired countdown has run,
the board holds as many X as O or exactly one X more; so the two counts differ by at
most 1, and while the game runs the player to move is the one with fewer marks (X on
equal counts). -/
theorem marks_differ_by_at_most_one (s : State) (h : ReachableNoSkip s) :
    (countMarks Player.X s.gameState = countMarks Player.O s.gameState ∨
      countMarks Player.X s.gameState = countMarks Player.O s.gameState + 1) ∧
    (s.gameActive = true →
      (s.currentPlayer = Player.X ↔
        countMarks Player.X s.gameState = countMarks Player.O s.gameState)) := by
  have hm := marksAlternate_of_reachableNoSkip s h
  constructor
  · cases hA : s.gameActive with
    | false => exact hm.2 hA
    | true =>
      rcases hm.1 hA with ⟨_, hc⟩ | ⟨_, hc⟩
      · exact Or.inl hc
      · exact Or.inr hc
  · intro hA
    rcases hm.1 hA with ⟨hp, hc⟩ | ⟨hp, hc⟩
    · exact ⟨fun _ => hc, fun _ => hp⟩
    · constructor
      · intro hx; rw [hp] at hx; exact absurd hx (by decide)
      · intro hx; omega

theorem startedState_click_four :
    cellClick 4 startedState 4 (constRnd 0) = some oneXState := by
  decide!

/-- C9 amended, at the state after start and one mark of X: one X, no O. -/
theorem marks_differ_by_at_most_one_witness :
    ReachableNoSkip oneXState ∧
      (countMarks Player.X oneXState.gameState = countMarks Player.O oneXState.gameState ∨
        countMarks Player.X oneXState.gameState =
          countMarks Player.O oneXState.gameState + 1) :=
  ⟨ReachableNoSkip.click 4 startedState 4 (constRnd 0) oneXState
      (ReachableNoSkip.start 4 initialState (constRnd 4) startedState startGame_initialState)
      startedState_click_four,
   (marks_differ_by_at_most_one oneXState
     (ReachableNoSkip.click 4 startedState 4 (constRnd 0) oneXState
       (ReachableNoSkip.start 4 initialState (constRnd 4) startedState startGame_initialState)
       startedState_click_four)).1⟩

theorem declareResult_statusDisplay (s : State) :
    (declareResult s).statusDisplay =
      if roundWon s.gameState then Message.winningMessage s.currentPlayer
      else Message.drawMessage := by
  unfold declareResult; split <;> simp

/-- A line completed by writing the mark of `p` into an empty cell of a board without a
winning line goes through that cell and belongs to `p`. -/
theorem lineHolds_through_new_mark (b : List Cell) (i : Nat) (p q : Player)
    (l : Nat × Nat × Nat) (hl : l ∈ winningConditions) (hi : i < b.length)
    (hno : ¬ hasWinningLine b) (h : lineHolds (b.set i (Cell.mark p)) l q) :
    q = p ∧ (l.1 = i ∨ l.2.1 = i ∨ l.2.2 = i) := by
  have hthrough : l.1 = i ∨ l.2.1 = i ∨ l.2.2 = i := by
    by_contra hcon
    simp only [not_or] at hcon
    obtain ⟨h1, h2, h3⟩ := hcon
    apply hno
    refine ⟨l, hl, q, ?_⟩
    unfold lineHolds at h ⊢
    rw [List.getElem?_set_ne (Ne.symm h1), List.getElem?_set_ne (Ne.symm h2),
      List.getElem?_set_ne (Ne.symm h3)] at h
    exact h
  refine ⟨?_, hthrough⟩
  have hset : (b.set i (Cell.mark p))[i]? = some (Cell.mark p) := List.getElem?_set_self hi
  unfold lineHolds at h
  rcases hthrough with h1 | h1 | h1
  · rw [h1, hset] at h
    have := h.1
    simp at this; exact this.symm
  · rw [h1, hset] at h
    have := h.2.1
    simp at this; exact this.symm
  · rw [h1, hset] at h
    have := h.2.2
    simp at this; exact this.symm

/-- C10: when an event takes a reachable running game to a finished game whose status
is the win message of player `p`, the event is a click on the active cell, `p` is the
current player (at the click and at the declaration), and some winning condition is
filled with the mark of `p` and goes through the cell just played. -/
theorem win_is_declared_for_line_owner (s : State) (e : Event) (fuel : Nat) (rnd : Nat → Nat)
    (s1 : State) (p : Player) (hR : Reachable s) (hA : s.gameActive = true)
    (hstep : step fuel s e rnd = some s1) (hover : s1.gameActive = false)
    (hmsg : s1.statusDisplay = Message.winningMessage p) :
    p = s.currentPlayer ∧ p = s1.currentPlayer ∧
      ∃ i : Nat, e = Event.click i ∧ (i : Int) = s.currentActiveCellIndex ∧
        s1.gameState = s.gameState.set i (Cell.mark p) ∧
        ∃ l ∈ winningConditions, lineHolds s1.gameState l p ∧
          (l.1 = i ∨ l.2.1 = i ∨ l.2.2 = i) := by
  obtain ⟨h9, ha, hw, _⟩ := Inv_of_reachable s hR
  obtain ⟨j, _, hj⟩ := ha hA
  have hm : Cell.empty ∈ s.gameState := List.mem_iff_getElem?.mpr ⟨j, hj⟩
  have hnw : ¬ hasWinningLine s.gameState := (roundWon_eq_false_iff _ h9).mp (hw hA)
  have hs1 := step_of_some fuel s e rnd s1 hstep
  have hcontra : ∀ {P : Prop}, s1.gameActive = true → P := by
    intro P h; rw [hover] at h; exact absurd h (by simp)
  cases e with
  | start =>
    obtain ⟨i, _, he⟩ := startGameResult_eq s rnd
    apply hcontra
    rw [hs1]
    show (startGameResult s rnd).gameActive = true
    rw [he, activateCell_gameActive, resetGame_gameActive]
  | fire id =>
    apply hcontra
    rw [hs1]
    show (fireTimerResult s id rnd).gameActive = true
    unfold fireTimerResult
    split
    · exact hA
    · rw [countdownTick_gameActive]; exact hA
    · rcases endTurnResult_cases
        { s with timers := s.timers.filter (fun t => t.1 ≠ id) } rnd with
        ⟨hA2, _⟩ | ⟨_, hfull, _⟩ | ⟨_, k, _, he⟩
      · have : s.gameActive = false := hA2
        rw [hA] at this; exact absurd this (by simp)
      · exact absurd hm hfull
      · rw [he, activateCell_gameActive, switchPlayer_gameActive]; exact hA
    · exact hA
  | click i =>
    have hs2 : s1 = cellClickResult s i rnd := hs1
    unfold cellClickResult at hs2
    rw [if_neg (by simp [hA])] at hs2
    by_cases hc : (i : Int) = s.currentActiveCellIndex ∧ s.gameState[i]? = some Cell.empty
    · rw [if_pos hc] at hs2
      have hi : i < s.gameState.length := by
        by_contra hge
        have := hc.2
        rw [List.getElem?_eq_none (by omega)] at this
        exact absurd this (by simp)
      have hpg : (playMark s i).gameState = s.gameState.set i (Cell.mark s.currentPlayer) := rfl
      have hp9 : (playMark s i).gameState.length = 9 := by
        rw [hpg, List.length_set]; exact h9
      rcases handleResultValidationResult_cases (playMark s i) rnd with ⟨_, he⟩ | ⟨_, hmem, he⟩
      · rw [he] at hs2
        have hst : s1.statusDisplay =
            if roundWon (playMark s i).gameState then
              Message.winningMessage (playMark s i).currentPlayer
            else Message.drawMessage := by
          rw [hs2]; exact declareResult_statusDisplay _
        rw [hmsg] at hst
        by_cases hrw : roundWon (playMark s i).gameState = true
        · rw [if_pos hrw] at hst
          have hp : p = s.currentPlayer := by
            have : Message.winningMessage p = Message.winningMessage s.currentPlayer := hst
            exact Message.winningMessage.inj this
          have hg1 : s1.gameState = s.gameState.set i (Cell.mark p) := by
            rw [hs2, declareResult_gameState, hpg, hp]
          obtain ⟨l, hl, q, hq⟩ := (roundWon_iff _ hp9).mp hrw
          rw [hpg] at hq
          obtain ⟨hqp, hthr⟩ := lineHolds_through_new_mark _ i _ q l hl hi hnw hq
          refine ⟨hp, ?_, i, rfl, hc.1, hg1, l, hl, ?_, hthr⟩
          · rw [hs2, declareResult_currentPlayer]; exact hp
          · rw [hg1, hp]; rw [hqp] at hq; exact hq
        · rw [if_neg hrw] at hst
          exact absurd hst (by simp)
      · rw [he] at hs2
        apply hcontra
        rw [hs2]
        rcases endTurnResult_cases (playMark s i) rnd with
          ⟨hA2, _⟩ | ⟨_, hfull, _⟩ | ⟨_, k, _, he2⟩
        · have : s.gameActive = false := hA2
          rw [hA] at this; exact absurd this (by simp)
        · exact absurd hmem hfull
        · rw [he2, activateCell_gameActive, switchPlayer_gameActive]; exact hA
    · rw [if_neg hc] at hs2
      apply hcontra
      rw [hs2]
      split <;> exact hA

theorem run_rowTrace : run 4 initialState rowTrace = some rowOpenState := by
  decide!

theorem reachable_rowOpenState : Reachable rowOpenState :=
  reachable_run 4 _ _ _ Reachable.init run_rowTrace

theorem rowOpenState_click_two :
    step 4 rowOpenState (Event.click 2) (constRnd 0) = some rowClosedState := by
  decide!

/-- C10 on the scenario of the specification: on `[X,X,"",O,O,"","","",""]` with cell 2
active, X clicks cell 2; the board becomes `[X,X,X,O,O,"","","",""]`, the win of X is
announced, the game is over, and the row `[0,1,2]` is X's. -/
theorem win_is_declared_for_line_owner_witness :
    Reachable rowOpenState ∧ rowOpenState.gameActive = true ∧
      step 4 rowOpenState (Event.click 2) (constRnd 0) = some rowClosedState ∧
      rowClosedState.gameActive = false ∧
      rowClosedState.statusDisplay = Message.winningMessage Player.X ∧
      rowClosedState.gameState =
        [Cell.mark Player.X, Cell.mark Player.X, Cell.mark Player.X,
         Cell.mark Player.O, Cell.mark Player.O, Cell.empty,
         Cell.empty, Cell.empty, Cell.empty] ∧
      Player.X = rowOpenState.currentPlayer ∧
      ∃ i : Nat, Event.click 2 = Event.click i ∧
        ∃ l ∈ winningConditions, lineHolds rowClosedState.gameState l Player.X ∧
          (l.1 = i ∨ l.2.1 = i ∨ l.2.2 = i) :=
  ⟨reachable_rowOpenState, by decide, rowOpenState_click_two, by decide, by decide, by decide,
   (win_is_declared_for_line_owner rowOpenState (Event.click 2) 4 (constRnd 0) rowClosedState
     Player.X reachable_rowOpenState (by decide) rowOpenState_click_two (by decide)
     (by decide)).1,
   match (win_is_declared_for_line_owner rowOpenState (Event.click 2) 4 (constRnd 0)
     rowClosedState Player.X reachable_rowOpenState (by decide) rowOpenState_click_two
     (by decide) (by decide)).2.2 with
   | ⟨i, h1, _, _, l, hl, h2, h3⟩ => ⟨i, h1, l, hl, h2, h3⟩⟩

theorem emptyCellsFrom_sorted (b : List Cell) :
    ∀ i : Nat, List.Pairwise (fun m n => m < n) (emptyCellsFrom i b) := by
  induction b with
  | nil => intro i; simp [emptyCellsFrom]
  | cons c cs ih =>
    intro i
    unfold emptyCellsFrom
    split
    · refine List.Pairwise.cons ?_ (ih (i + 1))
      intro n hn
      obtain ⟨j, hj, _⟩ := (mem_emptyCellsFrom cs (i + 1) n).mp hn
      omega
    · exact ih (i + 1)

theorem emptyCells_sorted (b : List Cell) :
    List.Pairwise (fun m n => m < n) (emptyCells b) :=
  emptyCellsFrom_sorted b 0

theorem emptyCells_nodup (b : List Cell) : (emptyCells b).Nodup :=
  (emptyCells_sorted b).imp (fun h => Nat.ne_of_lt h)

theorem pickRandomEmptyCell_fst (b : List Cell) (rnd : Nat → Nat)
    (h : (emptyCells b).length ≠ 0) :
    (pickRandomEmptyCell b rnd).1 =
      (((emptyCells b).getD (rnd 0 % (emptyCells b).length) 0 : Nat) : Int) := by
  unfold pickRandomEmptyCell
  rw [dif_neg h]
  have hlt : rnd 0 % (emptyCells b).length < (emptyCells b).length :=
    Nat.mod_lt _ (Nat.pos_of_ne_zero h)
  simp [List.getD, List.getElem?_eq_getElem hlt]

theorem pickRandomEmptyCell_snd (b : List Cell) (rnd : Nat → Nat)
    (h : (emptyCells b).length ≠ 0) :
    (pickRandomEmptyCell b rnd).2 = fun n => rnd (n + 1) := by
  unfold pickRandomEmptyCell
  rw [dif_neg h]

theorem pickRandomEmptyCell_of_draw (b : List Cell) (rnd : Nat → Nat) (k : Nat)
    (hk : k < (emptyCells b).length) (hr : rnd 0 = k) :
    (pickRandomEmptyCell b rnd).1 = (((emptyCells b)[k] : Nat) : Int) := by
  rw [pickRandomEmptyCell_fst b rnd (by omega), hr, Nat.mod_eq_of_lt hk]
  simp [List.getD, List.getElem?_eq_getElem hk]

/-- C11: `pickRandomEmptyCell` returns `-1` exactly when the board has no empty cell;
otherwise, with the draw `k` below the number `n` of empty cells, it returns the `k`-th
entry of the ascending list of empty indices. So the result is the index of an empty
cell, every empty cell is returned for exactly one `k < n`, and the choice looks at the
board only: the cell that is active now, when empty, can be picked again. -/
theorem pickRandomEmptyCell_spec (b : List Cell) :
    (∀ rnd, (pickRandomEmptyCell b rnd).1 = -1 ↔ Cell.empty ∉ b) ∧
    List.Pairwise (fun m n => m < n) (emptyCells b) ∧
    (∀ i, i ∈ emptyCells b ↔ b[i]? = some Cell.empty) ∧
    (∀ rnd k, k < (emptyCells b).length → rnd 0 = k →
      ∃ i, (emptyCells b)[k]? = some i ∧ (pickRandomEmptyCell b rnd).1 = (i : Int) ∧
        b[i]? = some Cell.empty ∧ (pickRandomEmptyCell b rnd).2 = fun n => rnd (n + 1)) ∧
    (∀ i, b[i]? = some Cell.empty →
      ∃! k, k < (emptyCells b).length ∧ (emptyCells b)[k]? = some i ∧
        ∀ rnd, rnd 0 = k → (pickRandomEmptyCell b rnd).1 = (i : Int)) ∧
    (∀ s : State, s.gameState = b → ∀ i : Nat, s.currentActiveCellIndex = (i : Int) →
      b[i]? = some Cell.empty →
      ∃ rnd, (pickRandomEmptyCell b rnd).1 = s.currentActiveCellIndex) := by
  have hdraw : ∀ i, b[i]? = some Cell.empty →
      ∃ k, k < (emptyCells b).length ∧ (emptyCells b)[k]? = some i ∧
        ∀ rnd, rnd 0 = k → (pickRandomEmptyCell b rnd).1 = (i : Int) := by
    intro i hi
    obtain ⟨k, hk, hki⟩ := List.mem_iff_getElem.mp ((mem_emptyCells b i).mpr hi)
    refine ⟨k, hk, by rw [List.getElem?_eq_getElem hk, hki], ?_⟩
    intro rnd hr
    rw [pickRandomEmptyCell_of_draw b rnd k hk hr, hki]
  refine ⟨fun rnd => pickRandomEmptyCell_eq_neg_one b rnd, emptyCells_sorted b,
    mem_emptyCells b, ?_, ?_, ?_⟩
  · intro rnd k hk hr
    refine ⟨(emptyCells b)[k], List.getElem?_eq_getElem hk,
      pickRandomEmptyCell_of_draw b rnd k hk hr, ?_, pickRandomEmptyCell_snd b rnd (by omega)⟩
    exact (mem_emptyCells b _).mp (List.getElem_mem _)
  · intro i hi
    obtain ⟨k, hk, hki, hr⟩ := hdraw i hi
    refine ⟨k, ⟨hk, hki, hr⟩, ?_⟩
    rintro k2 ⟨hk2, hk2i, _⟩
    rw [List.getElem?_eq_getElem hk] at hki
    rw [List.getElem?_eq_getElem hk2] at hk2i
    have h1 : (emptyCells b)[k2] = (emptyCells b)[k] := by
      rw [Option.some.inj hki, Option.some.inj hk2i]
    exact (List.Nodup.getElem_inj_iff (emptyCells_nodup b)).mp h1
  · intro s _ i hidx hi
    obtain ⟨k, _, _, hr⟩ := hdraw i hi
    exact ⟨fun _ => k, by rw [hr (fun _ => k) rfl, hidx]⟩

/-- C11 on the board `[X,X,"",O,O,"","","",""]`: the empty cells are 2, 5, 6, 7, 8, and
cell 2, the active one, is the result of exactly one draw. -/
theorem pickRandomEmptyCell_spec_witness :
    emptyCells rowOpenState.gameState = [2, 5, 6, 7, 8] ∧
      ∃! k, k < (emptyCells rowOpenState.gameState).length ∧
        (emptyCells rowOpenState.gameState)[k]? = some 2 ∧
        ∀ rnd, rnd 0 = k → (pickRandomEmptyCell rowOpenState.gameState rnd).1 = ((2 : Nat) : Int) :=
  ⟨by decide, (pickRandomEmptyCell_spec rowOpenState.gameState).2.2.2.2.1 2 (by decide)⟩

theorem pick_on_empty_board (b : List Cell) (rnd : Nat → Nat)
    (hb : b = [Cell.empty, Cell.empty, Cell.empty, Cell.empty, Cell.empty,
               Cell.empty, Cell.empty, Cell.empty, Cell.empty]) :
    (pickRandomEmptyCell b rnd).1 = ((rnd 0 % 9 : Nat) : Int) := by
  have he : emptyCells b = [0, 1, 2, 3, 4, 5, 6, 7, 8] := by rw [hb]; decide
  rw [pickRandomEmptyCell_fst b rnd (by rw [he]; decide), he]
  have hlt : rnd 0 % 9 < 9 := Nat.mod_lt _ (by decide)
  show ((List.getD [0, 1, 2, 3, 4, 5, 6, 7, 8] (rnd 0 % 9) 0 : Nat) : Int) = _
  generalize rnd 0 % 9 = m at hlt
  interval_cases m <;> rfl

theorem endTurnResult_on_empty_board (s : State) (rnd : Nat → Nat) (hA : s.gameActive = true)
    (hb : s.gameState = [Cell.empty, Cell.empty, Cell.empty, Cell.empty, Cell.empty,
                         Cell.empty, Cell.empty, Cell.empty, Cell.empty]) :
    endTurnResult s rnd = activateCell (switchPlayer s) ((rnd 0 % 9 : Nat) : Int) := by
  unfold endTurnResult
  rw [if_neg (by simp [hA]), pick_on_empty_board _ rnd hb, if_neg (by omega)]

/-- C12 fails on the code: in the skip example (empty board, X active on cell 4, the
countdown expired) the draw 4 makes the deferred `endTurn` activate cell 4 again,
now for O. -/
theorem skip_can_reactivate_same_cell :
    expiredState.gameState = [Cell.empty, Cell.empty, Cell.empty, Cell.empty, Cell.empty,
                              Cell.empty, Cell.empty, Cell.empty, Cell.empty] ∧
      expiredState.currentPlayer = Player.X ∧ expiredState.currentActiveCellIndex = 4 ∧
      expiredState.currentReactionTime = 0 ∧
      expiredState.timers.lookup 2 = some TimerKind.skip ∧
      ∃ s2, fireTimer 4 expiredState 2 (constRnd 4) = some s2 ∧
        s2.currentPlayer = Player.O ∧ s2.currentActiveCellIndex = 4 ∧ s2.gameActive = true :=
  ⟨by decide, by decide, by decide, by decide, by decide,
   (fireTimer 4 expiredState 2 (constRnd 4)).getD initialState,
   by decide!, by decide!, by decide!, by decide!⟩

/-- C12, amended: in the skip example (empty board, X active on cell 4, the countdown
expired, no click) the deferred `endTurn` activates for O the cell `k mod 9`, where `k`
is the outcome of the draw: one of the 9 cells of the unchanged empty board, and each
of them, cell 4 included, for some outcome. -/
theorem skip_example_activates_any_empty_cell :
    (∀ (fuel : Nat) (rnd : Nat → Nat),
      ∃ s2, fireTimer (fuel + 2) expiredState 2 rnd = some s2 ∧
        s2.currentPlayer = Player.O ∧ s2.gameActive = true ∧
        s2.gameState = expiredState.gameState ∧
        s2.currentActiveCellIndex = ((rnd 0 % 9 : Nat) : Int) ∧ rnd 0 % 9 < 9 ∧
        s2.gameState[rnd 0 % 9]? = some Cell.empty) ∧
    (∀ i : Fin 9, ∃ s2, fireTimer 2 expiredState 2 (constRnd i.val) = some s2 ∧
      s2.currentActiveCellIndex = (i.val : Int)) := by
  have hres : ∀ rnd, fireTimerResult expiredState 2 rnd =
      activateCell
        (switchPlayer { expiredState with
          timers := expiredState.timers.filter (fun t => t.1 ≠ 2) })
        ((rnd 0 % 9 : Nat) : Int) := by
    intro rnd
    have hl : expiredState.timers.lookup 2 = some TimerKind.skip := by decide
    unfold fireTimerResult
    rw [hl]
    exact endTurnResult_on_empty_board _ rnd rfl rfl
  constructor
  · intro fuel rnd
    have hlt : rnd 0 % 9 < 9 := Nat.mod_lt _ (by decide)
    refine ⟨_, fireTimer_eq fuel expiredState 2 rnd, ?_, ?_, ?_, ?_, hlt, ?_⟩
    · rw [hres, activateCell_currentPlayer]; rfl
    · rw [hres, activateCell_gameActive]; rfl
    · rw [hres, activateCell_gameState]; rfl
    · rw [hres, activateCell_currentActiveCellIndex]
    · rw [hres, activateCell_gameState]
      show [Cell.empty, Cell.empty, Cell.empty, Cell.empty, Cell.empty,
        Cell.empty, Cell.empty, Cell.empty, Cell.empty][rnd 0 % 9]? = some Cell.empty
      generalize rnd 0 % 9 = m at hlt
      interval_cases m <;> rfl
  · intro i
    refine ⟨_, fireTimer_eq 0 expiredState 2 (constRnd i.val), ?_⟩
    rw [hres, activateCell_currentActiveCellIndex]
    show ((i.val % 9 : Nat) : Int) = _
    rw [Nat.mod_eq_of_lt i.isLt]

theorem expiredState_skip :
    step 4 expiredState (Event.fire 2) (constRnd 0) = some twoHighlightsState := by
  decide!

theorem reachable_twoHighlightsState : Reachable twoHighlightsState :=
  Reachable.step 4 expiredState (Event.fire 2) (constRnd 0) twoHighlightsState
    reachable_expiredState expiredState_skip

/-- C13 fails on the code: after the skipped turn of `expiredState` the reachable state
`twoHighlightsState` has the game active on cell 0 while the cells 0 and 4 both carry
`clickable`; and the game `staleTrace` ends with the win of O while cell 8, active in
a skipped turn and never played, still carries `clickable`. -/
theorem skip_leaves_stale_highlight :
    Reachable twoHighlightsState ∧
    step 4 expiredState (Event.fire 2) (constRnd 0) = some twoHighlightsState ∧
    twoHighlightsState.gameActive = true ∧ twoHighlightsState.currentActiveCellIndex = 0 ∧
    twoHighlightsState.cells.map CellElem.clickable =
      [true, false, false, false, true, false, false, false, false] ∧
    ∃ s3, run 4 initialState staleTrace = some s3 ∧ Reachable s3 ∧
      s3.gameActive = false ∧ s3.statusDisplay = Message.winningMessage Player.O ∧
      s3.cells.map CellElem.clickable =
        [false, false, false, false, false, false, false, false, true] :=
  ⟨reachable_twoHighlightsState, expiredState_skip, by decide, by decide, by decide,
   (run 4 initialState staleTrace).getD initialState, by decide!,
   reachable_run 4 staleTrace initialState _ Reachable.init (by decide!),
   by decide!, by decide!, by decide!⟩

theorem pendingCountdowns_append (l1 l2 : List (Nat × TimerKind)) :
    pendingCountdowns (l1 ++ l2) = pendingCountdowns l1 ++ pendingCountdowns l2 := by
  unfold pendingCountdowns; exact List.filter_append _ _

theorem pendingCountdowns_filter (l : List (Nat × TimerKind)) (p : Nat × TimerKind → Bool) :
    pendingCountdowns (l.filter p) = (pendingCountdowns l).filter p := by
  unfold pendingCountdowns
  rw [List.filter_filter, List.filter_filter]
  congr 1
  funext t
  exact Bool.and_comm _ _

theorem pendingCountdowns_clearTimer (l : List (Nat × TimerKind)) (handle : Option Nat)
    (h : pendingCountdowns l = [] ∨
      ∃ k, handle = some k ∧ pendingCountdowns l = [(k, TimerKind.countdown)]) :
    pendingCountdowns (clearTimer l handle) = [] := by
  rcases h with h | ⟨k, hk, h⟩
  · cases handle with
    | none => exact h
    | some k =>
      show pendingCountdowns (l.filter _) = []
      rw [pendingCountdowns_filter, h]; rfl
  · rw [hk]
    show pendingCountdowns (l.filter _) = []
    rw [pendingCountdowns_filter, h]
    simp

theorem mem_of_lookup (l : List (Nat × TimerKind)) (id : Nat) (k : TimerKind)
    (h : l.lookup id = some k) : (id, k) ∈ l := by
  induction l with
  | nil => simp [List.lookup] at h
  | cons t l ih =>
    obtain ⟨a, b⟩ := t
    rw [List.lookup_cons] at h
    by_cases hab : (id == a) = true
    · rw [hab] at h
      have h1 : id = a := by simpa using hab
      have h2 : b = k := by simpa using h
      rw [h1, h2]; exact List.mem_cons_self _ _
    · have hab2 : (id == a) = false := by simpa using hab
      rw [hab2] at h
      exact List.mem_cons_of_mem _ (ih h)

theorem countdownStored_filter (s : State) (p : Nat × TimerKind → Bool)
    (h : countdownStored s) : countdownStored { s with timers := s.timers.filter p } := by
  unfold countdownStored at h ⊢
  show pendingCountdowns (s.timers.filter p) = [] ∨
    ∃ k, s.reactionTimerInterval = some k ∧
      pendingCountdowns (s.timers.filter p) = [(k, TimerKind.countdown)]
  rw [pendingCountdowns_filter]
  rcases h with h | ⟨k, hk, h⟩
  · left; rw [h]; rfl
  · rw [h]
    by_cases hp : p (k, TimerKind.countdown) = true
    · right; exact ⟨k, hk, by simp [hp]⟩
    · left; simp [hp]

theorem activateCell_reactionTimerInterval (s : State) (i : Int) :
    (activateCell s i).reactionTimerInterval = some s.nextTimerId := rfl

theorem declareResult_reactionTimerInterval (s : State) :
    (declareResult s).reactionTimerInterval = s.reactionTimerInterval := by
  unfold declareResult; split <;> rw [endGame_eq]

theorem declareResult_currentReactionTime (s : State) :
    (declareResult s).currentReactionTime = s.currentReactionTime := by
  unfold declareResult; split <;> simp

theorem TimerPre_of_TimerInv (s : State) (h : TimerInv s) : TimerPre s :=
  ⟨h.1, h.2.1, h.2.2.1⟩

theorem TimerInv_activateCell (s : State) (i : Int) (h : TimerPre s) :
    TimerInv (activateCell s i) := by
  have hc : pendingCountdowns (activateCell s i).timers =
      [(s.nextTimerId, TimerKind.countdown)] := by
    rw [activateCell_timers, pendingCountdowns_append,
      pendingCountdowns_clearTimer _ _ h.1]
    rfl
  refine ⟨Or.inr ⟨s.nextTimerId, activateCell_reactionTimerInterval s i, hc⟩, ?_, ?_, ?_⟩
  · rw [activateCell_currentReactionTime]; decide
  · rw [activateCell_currentReactionTime]
  · intro _; rw [activateCell_currentReactionTime]; decide

theorem TimerInv_declareResult (s : State) (h : TimerPre s) : TimerInv (declareResult s) := by
  have hc : pendingCountdowns (declareResult s).timers = [] := by
    rw [declareResult_timers]; exact pendingCountdowns_clearTimer _ _ h.1
  refine ⟨Or.inl hc, ?_, ?_, ?_⟩
  · rw [declareResult_currentReactionTime]; exact h.2.1
  · rw [declareResult_currentReactionTime]; exact h.2.2
  · intro hne; exact absurd hc hne

theorem TimerPre_switchPlayer (s : State) (h : TimerPre s) : TimerPre (switchPlayer s) := h

theorem TimerPre_playMark (s : State) (i : Nat) (h : TimerPre s) : TimerPre (playMark s i) := by
  refine ⟨Or.inl ?_, h.2.1, h.2.2⟩
  exact pendingCountdowns_clearTimer _ _ h.1

theorem TimerPre_resetGame (s : State) (h : TimerPre s) : TimerPre (resetGame s) := by
  refine ⟨Or.inl ?_, h.2.1, h.2.2⟩
  exact pendingCountdowns_clearTimer _ _ h.1

theorem TimerInv_endTurnResult_active (s : State) (rnd : Nat → Nat) (h : TimerPre s)
    (hA : s.gameActive = true) : TimerInv (endTurnResult s rnd) := by
  rcases endTurnResult_cases s rnd with ⟨hA2, _⟩ | ⟨_, _, he⟩ | ⟨_, i, _, he⟩
  · rw [hA] at hA2; exact absurd hA2 (by simp)
  · rw [he]; exact TimerInv_declareResult _ (TimerPre_switchPlayer s h)
  · rw [he]; exact TimerInv_activateCell _ _ (TimerPre_switchPlayer s h)

theorem TimerInv_filter (s : State) (p : Nat × TimerKind → Bool) (h : TimerInv s) :
    TimerInv { s with timers := s.timers.filter p } := by
  refine ⟨countdownStored_filter s p h.1, h.2.1, h.2.2.1, ?_⟩
  intro hne
  apply h.2.2.2
  intro hnil
  apply hne
  show pendingCountdowns (s.timers.filter p) = []
  rw [pendingCountdowns_filter, hnil]; rfl

theorem TimerInv_setTimer (s : State) (m : Message) (k : TimerKind)
    (hk : k ≠ TimerKind.countdown) (h : TimerInv s) :
    TimerInv (setTimer { s with statusDisplay := m } k).1 := by
  have hc : pendingCountdowns (setTimer { s with statusDisplay := m } k).1.timers =
      pendingCountdowns s.timers := by
    show pendingCountdowns (s.timers ++ [(s.nextTimerId, k)]) = _
    rw [pendingCountdowns_append]
    have : pendingCountdowns [(s.nextTimerId, k)] = [] := by
      unfold pendingCountdowns; simp [hk]
    rw [this, List.append_nil]
  unfold TimerInv countdownStored
  rw [hc]
  exact h

theorem TimerInv_countdownTick (s : State) (id : Nat) (h : TimerInv s)
    (hid : s.timers.lookup id = some TimerKind.countdown) : TimerInv (countdownTick s) := by
  have hmem : (id, TimerKind.countdown) ∈ pendingCountdowns s.timers := by
    unfold pendingCountdowns
    exact List.mem_filter.mpr ⟨mem_of_lookup _ _ _ hid, by simp⟩
  have hne : pendingCountdowns s.timers ≠ [] := List.ne_nil_of_mem hmem
  have h1 : 1 ≤ s.currentReactionTime := h.2.2.2 hne
  rw [countdownTick_eq]
  by_cases h0 : s.currentReactionTime - 1 ≤ 0
  · rw [if_pos h0, handleTimeUp_eq]
    have hc : pendingCountdowns (clearTimer s.timers s.reactionTimerInterval) = [] :=
      pendingCountdowns_clearTimer _ _ h.1
    split
    · refine ⟨Or.inl hc, ?_, ?_, fun hn => absurd hc hn⟩
      · show 0 ≤ s.currentReactionTime - 1
        omega
      · show s.currentReactionTime - 1 ≤ 3
        omega
    · have hc2 : pendingCountdowns (clearTimer s.timers s.reactionTimerInterval ++
          [(s.nextTimerId, TimerKind.skip)]) = [] := by
        rw [pendingCountdowns_append, hc]; rfl
      refine ⟨Or.inl hc2, ?_, ?_, fun hn => absurd hc2 hn⟩
      · show 0 ≤ s.currentReactionTime - 1
        omega
      · show s.currentReactionTime - 1 ≤ 3
        omega
  · rw [if_neg h0]
    have h3 := h.2.2.1
    refine ⟨h.1, ?_, ?_, ?_⟩
    · show 0 ≤ s.currentReactionTime - 1
      omega
    · show s.currentReactionTime - 1 ≤ 3
      omega
    · intro _
      show 1 ≤ s.currentReactionTime - 1
      omega

theorem TimerInv_fireTimerResult (s : State) (id : Nat) (rnd : Nat → Nat) (h : TimerInv s) :
    TimerInv (fireTimerResult s id rnd) := by
  unfold fireTimerResult
  split
  · exact h
  · rename_i hid; exact TimerInv_countdownTick s id h hid
  · have hf := TimerInv_filter s (fun t => decide (t.1 ≠ id)) h
    by_cases hA : s.gameActive = true
    · exact TimerInv_endTurnResult_active _ rnd (TimerPre_of_TimerInv _ hf) hA
    · have : endTurnResult { s with timers := s.timers.filter (fun t => decide (t.1 ≠ id)) } rnd
          = { s with timers := s.timers.filter (fun t => decide (t.1 ≠ id)) } := by
        unfold endTurnResult
        rw [if_pos (by simpa using hA)]
      rw [this]; exact hf
  · exact TimerInv_filter s (fun t => decide (t.1 ≠ id)) h

theorem TimerInv_cellClickResult (s : State) (i : Nat) (rnd : Nat → Nat) (h : TimerInv s) :
    TimerInv (cellClickResult s i rnd) := by
  unfold cellClickResult
  split
  · exact h
  · rename_i hA
    split
    · have hA2 : (playMark s i).gameActive = true := by simpa using hA
      have hp := TimerPre_playMark s i (TimerPre_of_TimerInv s h)
      rcases handleResultValidationResult_cases (playMark s i) rnd with ⟨_, he⟩ | ⟨_, _, he⟩
      · rw [he]; exact TimerInv_declareResult _ hp
      · rw [he]; exact TimerInv_endTurnResult_active _ rnd hp hA2
    · split
      · exact TimerInv_setTimer s _ _ (by decide) h
      · exact TimerInv_setTimer s _ _ (by decide) h

theorem TimerInv_startGameResult (s : State) (rnd : Nat → Nat) (h : TimerInv s) :
    TimerInv (startGameResult s rnd) := by
  obtain ⟨i, _, he⟩ := startGameResult_eq s rnd
  rw [he]
  exact TimerInv_activateCell _ _ (TimerPre_resetGame s (TimerPre_of_TimerInv s h))

theorem TimerInv_initialState : TimerInv initialState := by
  refine ⟨Or.inl rfl, by decide, by decide, ?_⟩
  intro h; exact absurd rfl h

theorem TimerInv_of_reachable (s : State) (h : Reachable s) : TimerInv s := by
  induction h with
  | init => exact TimerInv_initialState
  | step fuel s e rnd s1 _ hstep ih =>
    rw [step_of_some fuel s e rnd s1 hstep]
    cases e with
    | click i => exact TimerInv_cellClickResult s i rnd ih
    | fire id => exact TimerInv_fireTimerResult s id rnd ih
    | start => exact TimerInv_startGameResult s rnd ih

/-- C14: with the pending timers as an explicit list, in every reachable state at most
one countdown interval is pending and every pending countdown carries the handle stored
in `reactionTimerInterval`. `startReactionTimer` clears the stored handle and then
registers the one new countdown, so that on a reachable state exactly the new one is
pending afterwards; `handleTimeUp` and the notices of the click listener register
timeouts only. -/
theorem one_countdown_pending (s : State) (h : Reachable s) :
    (pendingCountdowns s.timers).length ≤ 1 ∧
    (∀ t ∈ s.timers, t.2 = TimerKind.countdown → s.reactionTimerInterval = some t.1) ∧
    (startReactionTimer s).timers =
      clearTimer s.timers s.reactionTimerInterval ++ [(s.nextTimerId, TimerKind.countdown)] ∧
    (startReactionTimer s).reactionTimerInterval = some s.nextTimerId ∧
    pendingCountdowns (startReactionTimer s).timers = [(s.nextTimerId, TimerKind.countdown)] ∧
    pendingCountdowns (handleTimeUp s).timers = pendingCountdowns s.timers ∧
    (∀ m, pendingCountdowns (setTimer { s with statusDisplay := m } TimerKind.revert).1.timers =
      pendingCountdowns s.timers) ∧
    pendingCountdowns (endGame s).timers = [] := by
  have hs := (TimerInv_of_reachable s h).1
  have hclear : pendingCountdowns (clearTimer s.timers s.reactionTimerInterval) = [] :=
    pendingCountdowns_clearTimer _ _ hs
  refine ⟨?_, ?_, rfl, rfl, ?_, ?_, ?_, ?_⟩
  · rcases hs with hs | ⟨k, _, hs⟩ <;> rw [hs] <;> simp
  · intro t ht hk
    have hm : t ∈ pendingCountdowns s.timers := by
      unfold pendingCountdowns
      exact List.mem_filter.mpr ⟨ht, by simp [hk]⟩
    rcases hs with hs | ⟨k, hk2, hs⟩
    · rw [hs] at hm; exact absurd hm (List.not_mem_nil _)
    · rw [hs] at hm
      have : t = (k, TimerKind.countdown) := by simpa using hm
      rw [this]; exact hk2
  · rw [startReactionTimer_eq]
    show pendingCountdowns (clearTimer s.timers s.reactionTimerInterval ++
      [(s.nextTimerId, TimerKind.countdown)]) = _
    rw [pendingCountdowns_append, hclear]; rfl
  · rw [handleTimeUp_eq]
    split
    · rfl
    · show pendingCountdowns (s.timers ++ [(s.nextTimerId, TimerKind.skip)]) = _
      rw [pendingCountdowns_append]
      show pendingCountdowns s.timers ++ [] = _
      rw [List.append_nil]
  · intro m
    show pendingCountdowns (s.timers ++ [(s.nextTimerId, TimerKind.revert)]) = _
    rw [pendingCountdowns_append]
    show pendingCountdowns s.timers ++ [] = _
    rw [List.append_nil]
  · rw [endGame_timers]; exact hclear

/-- C14 at the reachable state after a skipped turn: the one pending countdown is
timer 3, the stored handle. -/
theorem one_countdown_pending_witness :
    Reachable twoHighlightsState ∧
      (pendingCountdowns twoHighlightsState.timers).length ≤ 1 ∧
      (∀ t ∈ twoHighlightsState.timers, t.2 = TimerKind.countdown →
        twoHighlightsState.reactionTimerInterval = some t.1) ∧
      twoHighlightsState.reactionTimerInterval = some 3 :=
  ⟨reachable_twoHighlightsState,
   (one_countdown_pending twoHighlightsState reachable_twoHighlightsState).1,
   (one_countdown_pending twoHighlightsState reachable_twoHighlightsState).2.1,
   by decide⟩

theorem countdownTick_currentReactionTime (s : State) :
    (countdownTick s).currentReactionTime = s.currentReactionTime - 1 := by
  rw [countdownTick_eq]
  split
  · rw [handleTimeUp_eq]; split <;> rfl
  · rfl

theorem countdownTick_running (s : State) (h : ¬ s.currentReactionTime - 1 ≤ 0) :
    countdownTick s =
      { s with
        currentReactionTime := s.currentReactionTime - 1,
        reactionTimerText := s.currentReactionTime - 1,
        reactionTimerDanger := if s.currentReactionTime - 1 ≤ 1 then true
                               else s.reactionTimerDanger } := by
  rw [countdownTick_eq, if_neg h]

theorem countdownTick_expired (s : State) (h : s.currentReactionTime - 1 ≤ 0) :
    countdownTick s =
      handleTimeUp
        { s with
          currentReactionTime := s.currentReactionTime - 1,
          reactionTimerText := s.currentReactionTime - 1,
          reactionTimerDanger := true,
          timers := clearTimer s.timers s.reactionTimerInterval } := by
  rw [countdownTick_eq, if_pos h]

/-- C15: `makeCellActive` at an index that has a cell element sets the countdown to 3
without the danger mark; every tick lowers the value by exactly 1. From the value 3 the first tick
gives 2 and nothing else (no danger mark, timers and status untouched), the second
gives 1 with the danger mark and still no `handleTimeUp`, and the third gives 0,
cancels the stored interval and calls `handleTimeUp`, which in an active game shows
the time-up message and schedules the deferred `endTurn`. In every reachable state the
value lies in 0..3. -/
theorem countdown_three_ticks :
    (∀ (fuel : Nat) (s : State) (index : Int) (rnd : Nat → Nat), index ≠ -1 →
      hasCell s index →
      ∃ s1, makeCellActive (fuel + 1) s index rnd = some s1 ∧
        s1.currentActiveCellIndex = index ∧
        s1.currentReactionTime = 3 ∧ s1.reactionTimerDanger = false) ∧
    (∀ s : State, (countdownTick s).currentReactionTime = s.currentReactionTime - 1) ∧
    (∀ s : State, s.currentReactionTime = 3 → s.reactionTimerDanger = false →
      ((countdownTick s).currentReactionTime = 2 ∧
        (countdownTick s).reactionTimerDanger = false ∧
        (countdownTick s).timers = s.timers ∧
        (countdownTick s).statusDisplay = s.statusDisplay) ∧
      ((countdownTick (countdownTick s)).currentReactionTime = 1 ∧
        (countdownTick (countdownTick s)).reactionTimerDanger = true ∧
        (countdownTick (countdownTick s)).timers = s.timers ∧
        (countdownTick (countdownTick s)).statusDisplay = s.statusDisplay) ∧
      countdownTick (countdownTick (countdownTick s)) =
        handleTimeUp
          { s with
            currentReactionTime := 0,
            reactionTimerText := 0,
            reactionTimerDanger := true,
            timers := clearTimer s.timers s.reactionTimerInterval } ∧
      (countdownTick (countdownTick (countdownTick s))).currentReactionTime = 0 ∧
      (s.gameActive = true →
        (countdownTick (countdownTick (countdownTick s))).statusDisplay =
          Message.timeUpMessage s.currentPlayer ∧
        (countdownTick (countdownTick (countdownTick s))).timers =
          clearTimer s.timers s.reactionTimerInterval ++ [(s.nextTimerId, TimerKind.skip)]) ∧
      (countdownStored s →
        pendingCountdowns (countdownTick (countdownTick (countdownTick s))).timers = [])) ∧
    (∀ s : State, Reachable s →
      0 ≤ s.currentReactionTime ∧ s.currentReactionTime ≤ 3 ∧
      (pendingCountdowns s.timers ≠ [] → 1 ≤ s.currentReactionTime)) := by
  refine ⟨?_, countdownTick_currentReactionTime, ?_, ?_⟩
  · intro fuel s index rnd hi _
    refine ⟨activateCell s index, ?_, rfl, rfl, rfl⟩
    rw [makeCellActive_succ, if_neg hi]
  · intro s h3 hd
    have e1 : countdownTick s =
        { s with currentReactionTime := 2, reactionTimerText := 2 } := by
      rw [countdownTick_running s (by rw [h3]; decide), h3]
      have : ((3 : Int) - 1 ≤ 1) = False := by simp
      simp only [this, if_false, hd]
      rfl
    have e2 : countdownTick (countdownTick s) =
        { s with currentReactionTime := 1, reactionTimerText := 1,
                 reactionTimerDanger := true } := by
      rw [e1, countdownTick_running _ (by show ¬ (2 : Int) - 1 ≤ 0; decide)]
      rfl
    have e3 : countdownTick (countdownTick (countdownTick s)) =
        handleTimeUp
          { s with
            currentReactionTime := 0,
            reactionTimerText := 0,
            reactionTimerDanger := true,
            timers := clearTimer s.timers s.reactionTimerInterval } := by
      rw [e2, countdownTick_expired _ (by show (1 : Int) - 1 ≤ 0; decide)]
      rfl
    refine ⟨⟨by rw [e1], by rw [e1]; exact hd, by rw [e1], by rw [e1]⟩,
      ⟨by rw [e2], by rw [e2], by rw [e2], by rw [e2]⟩, e3, ?_, ?_, ?_⟩
    · rw [e3, handleTimeUp_eq]; split <;> rfl
    · intro hA
      rw [e3, handleTimeUp_eq, if_neg (by simp [hA])]
      exact ⟨rfl, rfl⟩
    · intro hs
      have hc : pendingCountdowns (clearTimer s.timers s.reactionTimerInterval) = [] :=
        pendingCountdowns_clearTimer _ _ hs
      rw [e3, handleTimeUp_eq]
      split
      · exact hc
      · show pendingCountdowns (clearTimer s.timers s.reactionTimerInterval ++
          [(s.nextTimerId, TimerKind.skip)]) = []
        rw [pendingCountdowns_append, hc]; rfl
  · intro s hR
    have h := TimerInv_of_reachable s hR
    exact ⟨h.2.1, h.2.2.1, h.2.2.2⟩

/-- C15 on the freshly started game: activating cell 7, which has an element, sets the
countdown to 3; the values after the three ticks are 2, 1 and 0, and the state after the
third tick is `expiredState`. -/
theorem countdown_three_ticks_witness :
    hasCell lastSecondState 7 ∧
      (∃ s1, makeCellActive 1 lastSecondState 7 (constRnd 0) = some s1 ∧
        s1.currentActiveCellIndex = 7 ∧
        s1.currentReactionTime = 3 ∧ s1.reactionTimerDanger = false) ∧
      startedState.currentReactionTime = 3 ∧ startedState.reactionTimerDanger = false ∧
      (countdownTick startedState).currentReactionTime = 2 ∧
      (countdownTick startedState).reactionTimerDanger = false ∧
      (countdownTick (countdownTick startedState)).currentReactionTime = 1 ∧
      (countdownTick (countdownTick startedState)).reactionTimerDanger = true ∧
      (countdownTick (countdownTick (countdownTick startedState))).currentReactionTime = 0 ∧
      countdownTick (countdownTick (countdownTick startedState)) = expiredState :=
  ⟨by decide,
   countdown_three_ticks.1 0 lastSecondState 7 (constRnd 0) (by decide) (by decide),
   by decide, by decide,
   (countdown_three_ticks.2.2.1 startedState (by decide) (by decide)).1.1,
   (countdown_three_ticks.2.2.1 startedState (by decide) (by decide)).1.2.1,
   (countdown_three_ticks.2.2.1 startedState (by decide) (by decide)).2.1.1,
   (countdown_three_ticks.2.2.1 startedState (by decide) (by decide)).2.1.2.1,
   (countdown_three_ticks.2.2.1 startedState (by decide) (by decide)).2.2.2.1,
   by decide!⟩

theorem playMark_gameState (s : State) (i : Nat) :
    (playMark s i).gameState = s.gameState.set i (Cell.mark s.currentPlayer) := rfl

/-- The board after an event other than a start: unchanged, or the current player's
mark written into the active cell, which was empty. -/
theorem stepResult_board (s : State) (e : Event) (rnd : Nat → Nat) (he : e ≠ Event.start) :
    (stepResult s e rnd).gameState = s.gameState ∨
    (s.gameActive = true ∧ ∃ i : Nat, e = Event.click i ∧
      (i : Int) = s.currentActiveCellIndex ∧ s.gameState[i]? = some Cell.empty ∧
      (stepResult s e rnd).gameState = s.gameState.set i (Cell.mark s.currentPlayer)) := by
  cases e with
  | start => exact absurd rfl he
  | fire id =>
    left
    show (fireTimerResult s id rnd).gameState = s.gameState
    unfold fireTimerResult
    split
    · rfl
    · exact countdownTick_gameState s
    · rw [endTurnResult_gameState]
    · rfl
  | click i =>
    have hr : stepResult s (Event.click i) rnd = cellClickResult s i rnd := rfl
    rw [hr]
    unfold cellClickResult
    by_cases hA : (!s.gameActive) = true
    · left; rw [if_pos hA]
    · rw [if_neg hA]
      by_cases hc : (i : Int) = s.currentActiveCellIndex ∧ s.gameState[i]? = some Cell.empty
      · right
        rw [if_pos hc]
        refine ⟨by simpa using hA, i, rfl, hc.1, hc.2, ?_⟩
        rw [handleResultValidationResult_gameState, playMark_gameState]
      · left
        rw [if_neg hc]
        split <;> rfl

theorem count_empty_set (b : List Cell) (p : Player) :
    ∀ i : Nat, b[i]? = some Cell.empty →
      (b.set i (Cell.mark p)).count Cell.empty + 1 = b.count Cell.empty := by
  induction b with
  | nil => intro i h; simp at h
  | cons c cs ih =>
    intro i h
    cases i with
    | zero =>
      have hc : c = Cell.empty := by simpa using h
      subst hc
      rw [List.set_cons_zero, List.count_cons, List.count_cons]
      simp
    | succ i =>
      have h2 : cs[i]? = some Cell.empty := by simpa using h
      rw [List.set_cons_succ, List.count_cons, List.count_cons, ← ih i h2]
      omega

theorem set_ne_self_of_empty (b : List Cell) (p : Player) (i : Nat)
    (h : b[i]? = some Cell.empty) : b.set i (Cell.mark p) ≠ b := by
  intro heq
  have h1 := count_empty_set b p i h
  rw [heq] at h1
  omega

theorem acceptedClicks_le (fuel : Nat) (es : List (Event × (Nat → Nat))) :
    ∀ s : State, (∀ x ∈ es, x.1 ≠ Event.start) →
      acceptedClicks fuel s es ≤ s.gameState.count Cell.empty := by
  induction es with
  | nil => intro s _; exact Nat.zero_le _
  | cons x es ih =>
    intro s hns
    obtain ⟨e, rnd⟩ := x
    have he : e ≠ Event.start := hns (e, rnd) (List.mem_cons_self _ _)
    unfold acceptedClicks
    cases hstep : step fuel s e rnd with
    | none => exact Nat.zero_le _
    | some s1 =>
      simp only
      have h1 := ih s1 (fun x hx => hns x (List.mem_cons_of_mem _ hx))
      have hs1 := step_of_some fuel s e rnd s1 hstep
      rcases stepResult_board s e rnd he with hb | ⟨_, i, _, _, hem, hb⟩
      · rw [← hs1] at hb
        rw [if_pos hb]
        rw [hb] at h1
        omega
      · rw [← hs1] at hb
        have h2 := count_empty_set s.gameState s.currentPlayer i hem
        rw [← hb] at h2
        split <;> omega

/-- C18: an event other than a start keeps every mark: a cell that is non-empty before
the event holds the same value after it, and the board is either unchanged or differs
in one cell, which was empty and now holds a mark; the board keeps its length and the
number of empty cells never grows. So in a run without a start the number of accepted
clicks (events that change the board) is at most the number of empty cells, hence at
most 9 on a board of nine cells. -/
theorem marks_are_permanent :
    (∀ (s : State) (e : Event) (fuel : Nat) (rnd : Nat → Nat) (s1 : State),
      e ≠ Event.start → step fuel s e rnd = some s1 →
        (∀ (j : Nat) (v : Cell), s.gameState[j]? = some v → v ≠ Cell.empty →
          s1.gameState[j]? = some v) ∧
        (s1.gameState = s.gameState ∨
          ∃ i p, s.gameState[i]? = some Cell.empty ∧
            s1.gameState = s.gameState.set i (Cell.mark p) ∧
            s1.gameState.count Cell.empty + 1 = s.gameState.count Cell.empty) ∧
        s1.gameState.length = s.gameState.length ∧
        s1.gameState.count Cell.empty ≤ s.gameState.count Cell.empty) ∧
    (∀ (fuel : Nat) (es : List (Event × (Nat → Nat))) (s : State),
      (∀ x ∈ es, x.1 ≠ Event.start) →
        acceptedClicks fuel s es ≤ s.gameState.count Cell.empty ∧
        (s.gameState.length = 9 → acceptedClicks fuel s es ≤ 9)) := by
  constructor
  · intro s e fuel rnd s1 he hstep
    have hs1 := step_of_some fuel s e rnd s1 hstep
    rcases stepResult_board s e rnd he with hb | ⟨_, i, _, _, hem, hb⟩
    · rw [← hs1] at hb
      rw [hb]
      exact ⟨fun j v h _ => h, Or.inl rfl, rfl, le_refl _⟩
    · rw [← hs1] at hb
      have hc := count_empty_set s.gameState s.currentPlayer i hem
      rw [hb]
      refine ⟨?_, Or.inr ⟨i, s.currentPlayer, hem, rfl, hc⟩, List.length_set _ _ _, by omega⟩
      intro j v hj hv
      by_cases hji : j = i
      · rw [hji, hem] at hj
        exact absurd (Option.some.inj hj).symm hv
      · rw [List.getElem?_set_ne (Ne.symm hji)]; exact hj
  · intro fuel es s hns
    have h1 := acceptedClicks_le fuel es s hns
    refine ⟨h1, fun h9 => ?_⟩
    have h2 : s.gameState.count Cell.empty ≤ s.gameState.length := List.count_le_length _ _
    omega

/-- C18 on the run `skipTrace` from the freshly started game: two clicks are accepted,
within the bound of 9. -/
theorem marks_are_permanent_witness :
    acceptedClicks 4 startedState skipTrace = 2 ∧
      acceptedClicks 4 startedState skipTrace ≤ 9 :=
  ⟨by decide!,
   (marks_are_permanent.2 4 skipTrace startedState (fun x hx => by
     simp only [skipTrace, List.mem_cons, List.mem_singleton] at hx
     rcases hx with rfl | rfl | rfl | rfl | rfl | rfl | hx
     · decide
     · decide
     · decide
     · decide
     · decide
     · decide
     · exact absurd hx (List.not_mem_nil _))).2 (by decide)⟩

theorem noTwoWinners_of_no_line (b : List Cell) (h : ¬ hasWinningLine b) : noTwoWinners b := by
  rintro ⟨⟨l, hl, hx⟩, _⟩
  exact h ⟨l, hl, Player.X, hx⟩

theorem noTwoWinners_set (b : List Cell) (i : Nat) (p : Player) (hi : b[i]? = some Cell.empty)
    (hno : ¬ hasWinningLine b) : noTwoWinners (b.set i (Cell.mark p)) := by
  have hlt : i < b.length := by
    by_contra hge
    rw [List.getElem?_eq_none (by omega)] at hi
    exact absurd hi (by simp)
  rintro ⟨⟨l1, hl1, hx⟩, ⟨l2, hl2, ho⟩⟩
  have h1 := (lineHolds_through_new_mark b i p Player.X l1 hl1 hlt hno hx).1
  have h2 := (lineHolds_through_new_mark b i p Player.O l2 hl2 hlt hno ho).1
  rw [← h1] at h2
  exact absurd h2 (by decide)

theorem noTwoWinners_of_reachable (s : State) (h : Reachable s) : noTwoWinners s.gameState := by
  induction h with
  | init => exact noTwoWinners_of_no_line _ (by decide)
  | step fuel s e rnd s1 hR hstep ih =>
    have hs1 := step_of_some fuel s e rnd s1 hstep
    by_cases he : e = Event.start
    · obtain ⟨i, _, hsg⟩ := startGameResult_eq s rnd
      rw [he] at hs1
      have : s1.gameState = [Cell.empty, Cell.empty, Cell.empty, Cell.empty, Cell.empty,
          Cell.empty, Cell.empty, Cell.empty, Cell.empty] := by
        rw [hs1]
        show (startGameResult s rnd).gameState = _
        rw [hsg, activateCell_gameState, resetGame_gameState]
      rw [this]
      exact noTwoWinners_of_no_line _ (by decide)
    · rcases stepResult_board s e rnd he with hb | ⟨hA, i, _, _, hem, hb⟩
      · rw [hs1, hb]; exact ih
      · rw [hs1, hb]
        obtain ⟨h9, _, hw, _⟩ := Inv_of_reachable s hR
        exact noTwoWinners_set _ i _ hem ((roundWon_eq_false_iff _ h9).mp (hw hA))

/-- C16: in a reachable state with the game active no winning condition holds on the
board. Hence a click that completes a line ends the game at once, with the win message
of the player who clicked, and in no reachable state, finished games included, does the
board hold a completed line of X together with one of O. -/
theorem no_line_while_active (s : State) (h : Reachable s) :
    (s.gameActive = true → ¬ hasWinningLine s.gameState) ∧
    (∀ (i fuel : Nat) (rnd : Nat → Nat) (s1 : State), s.gameActive = true →
      cellClick fuel s i rnd = some s1 → hasWinningLine s1.gameState →
        s1.gameActive = false ∧ s1.statusDisplay = Message.winningMessage s.currentPlayer ∧
        s1.gameState = s.gameState.set i (Cell.mark s.currentPlayer)) ∧
    noTwoWinners s.gameState := by
  obtain ⟨h9, _, hw, _⟩ := Inv_of_reachable s h
  have hnl : s.gameActive = true → ¬ hasWinningLine s.gameState :=
    fun hA => (roundWon_eq_false_iff _ h9).mp (hw hA)
  refine ⟨hnl, ?_, noTwoWinners_of_reachable s h⟩
  intro i fuel rnd s1 hA hclick hline
  have hs1 := cellClick_of_some fuel s i rnd s1 hclick
  have hstep : s1 = stepResult s (Event.click i) rnd := hs1
  rcases stepResult_board s (Event.click i) rnd (fun hx => Event.noConfusion hx) with
    hb | ⟨_, j, hj, hc1, hc2, hb⟩
  · rw [← hstep] at hb
    rw [hb] at hline
    exact absurd hline (hnl hA)
  · have hij : i = j := by injection hj
    subst hij
    rw [← hstep] at hb
    have hp9 : (playMark s i).gameState.length = 9 := by
      rw [playMark_gameState, List.length_set]; exact h9
    have hrw : roundWon (playMark s i).gameState = true := by
      rw [roundWon_iff _ hp9, playMark_gameState, ← hb]; exact hline
    have hres : s1 = declareResult (playMark s i) := by
      rw [hs1]
      unfold cellClickResult
      rw [if_neg (by simp [hA]), if_pos ⟨hc1, hc2⟩]
      unfold handleResultValidationResult
      rw [if_pos (Or.inl hrw)]
    refine ⟨by rw [hres, declareResult_gameActive], ?_, hb⟩
    rw [hres, declareResult_statusDisplay, if_pos hrw]
    rfl

/-- C16 on the scenario of the specification: X completes the row `[0,1,2]` in
`rowOpenState`, and the game ends at once. -/
theorem no_line_while_active_witness :
    Reachable rowOpenState ∧ ¬ hasWinningLine rowOpenState.gameState ∧
      hasWinningLine rowClosedState.gameState ∧ rowClosedState.gameActive = false ∧
      rowClosedState.statusDisplay = Message.winningMessage rowOpenState.currentPlayer :=
  ⟨reachable_rowOpenState,
   (no_line_while_active rowOpenState reachable_rowOpenState).1 (by decide),
   by decide,
   ((no_line_while_active rowOpenState reachable_rowOpenState).2.1 2 4 (constRnd 0)
     rowClosedState (by decide) rowOpenState_click_two (by decide)).1,
   ((no_line_while_active rowOpenState reachable_rowOpenState).2.1 2 4 (constRnd 0)
     rowClosedState (by decide) rowOpenState_click_two (by decide)).2.1⟩

theorem handleResultValidationResult_status_active (s : State) (rnd : Nat → Nat)
    (hA : s.gameActive = true) :
    (handleResultValidationResult s rnd).statusDisplay ≠ Message.spotTaken := by
  rcases handleResultValidationResult_cases s rnd with ⟨_, he⟩ | ⟨_, _, he⟩
  · rw [he, declareResult_statusDisplay]
    split <;> simp
  · rw [he]
    rcases endTurnResult_cases s rnd with ⟨hA2, _⟩ | ⟨_, _, he2⟩ | ⟨_, k, _, he2⟩
    · rw [hA] at hA2; exact absurd hA2 (by simp)
    · rw [he2, declareResult_statusDisplay]
      split <;> simp
    · rw [he2, activateCell_statusDisplay]
      show Message.currentPlayerMessage _ ≠ Message.spotTaken
      simp

/-- C17: in a reachable state with the game active, `currentActiveCellIndex` is an index
in 0..8 of an empty cell. So a click on the active cell always passes the emptiness
test of the listener and is played, an occupied cell is never the active one and a
click on it takes the spot-taken branch, and a click that ends with the spot-taken
notice was not on the active cell. -/
theorem active_cell_is_empty (s : State) (h : Reachable s) (hA : s.gameActive = true) :
    ∃ i : Nat, i < 9 ∧ s.currentActiveCellIndex = (i : Int) ∧
      s.gameState[i]? = some Cell.empty ∧
      (∀ (fuel : Nat) (rnd : Nat → Nat),
        cellClick fuel s i rnd = handleCellPlayed fuel s i rnd) ∧
      (∀ (j fuel : Nat) (rnd : Nat → Nat), s.gameState[j]? ≠ some Cell.empty →
        (j : Int) ≠ s.currentActiveCellIndex ∧
        cellClick fuel s j rnd =
          some (setTimer { s with statusDisplay := Message.spotTaken } TimerKind.revert).1) ∧
      (∀ (j fuel : Nat) (rnd : Nat → Nat) (s1 : State), cellClick fuel s j rnd = some s1 →
        s1.statusDisplay = Message.spotTaken → (j : Int) ≠ s.currentActiveCellIndex) := by
  obtain ⟨h9, ha, _, _⟩ := Inv_of_reachable s h
  obtain ⟨i, hidx, hem⟩ := ha hA
  have hlt : i < 9 := by
    by_contra hge
    rw [List.getElem?_eq_none (by omega)] at hem
    exact absurd hem (by simp)
  have hocc : ∀ j : Nat, s.gameState[j]? ≠ some Cell.empty → (j : Int) ≠ s.currentActiveCellIndex := by
    intro j hj hji
    rw [hidx] at hji
    have : j = i := by omega
    rw [this] at hj
    exact hj hem
  refine ⟨i, hlt, hidx, hem, ?_, ?_, ?_⟩
  · intro fuel rnd
    unfold cellClick
    rw [if_neg (by simp [hA]), if_pos ⟨hidx.symm, hem⟩]
  · intro j fuel rnd hj
    refine ⟨hocc j hj, ?_⟩
    unfold cellClick
    rw [if_neg (by simp [hA]), if_neg (fun hc => hj hc.2), if_pos hj]
  · intro j fuel rnd s1 hclick hst hji
    have hs1 := cellClick_of_some fuel s j rnd s1 hclick
    have hj : j = i := by rw [hidx] at hji; omega
    subst hj
    unfold cellClickResult at hs1
    rw [if_neg (by simp [hA]), if_pos ⟨hji, hem⟩] at hs1
    rw [hs1] at hst
    exact handleResultValidationResult_status_active (playMark s j) rnd hA hst

/-- C17 on the freshly started game: the active cell 4 is empty and a click on it is
played. -/
theorem active_cell_is_empty_witness :
    Reachable startedState ∧ startedState.gameActive = true ∧
      ∃ i : Nat, i < 9 ∧ startedState.currentActiveCellIndex = (i : Int) ∧
        startedState.gameState[i]? = some Cell.empty ∧
        ∀ (fuel : Nat) (rnd : Nat → Nat),
          cellClick fuel startedState i rnd = handleCellPlayed fuel startedState i rnd :=
  ⟨reachable_startedState, by decide,
   match active_cell_is_empty startedState reachable_startedState (by decide) with
   | ⟨i, h1, h2, h3, h4, _⟩ => ⟨i, h1, h2, h3, h4⟩⟩

theorem hasCell_of_board (s : State) (i : Nat) (h : boardHasCells s)
    (hi : s.gameState[i]? = some Cell.empty) : hasCell s (i : Int) := by
  have hlt : i < s.gameState.length := by
    by_contra hge
    rw [List.getElem?_eq_none (by omega)] at hi
    exact absurd hi (by simp)
  have hlt2 : i < s.cells.length := Nat.lt_of_lt_of_le hlt h
  unfold hasCell jsGet
  rw [if_neg (by omega)]
  show (s.cells[i]?).isSome = true
  rw [List.getElem?_eq_getElem hlt2]
  rfl

/-- C19: on a page that has a cell element for every index of the board, the mutually
recursive calls terminate for every board, every value of `gameActive` and every random
source, within a call depth of 4: `endTurn` returns with depth 2,
`handleResultValidation` with depth 3 and `makeCellActive`, called with `-1` or with an
index that has a cell element, with depth 4; a larger budget gives the same result.
`endTurn` in an active game calls `handleResultValidation` only when the board has no
empty cell, and there `handleResultValidation` ends the game without a further call;
otherwise it calls `makeCellActive` with the index of an empty cell, which has a cell
element, and that call returns without a further call. So `makeCellActive(-1)` runs
`handleResultValidation` and then at most one `endTurn`. -/
theorem mutual_calls_terminate :
    (∀ (fuel : Nat) (s : State) (rnd : Nat → Nat), boardHasCells s →
      endTurn (fuel + 2) s rnd = some (endTurnResult s rnd)) ∧
    (∀ (fuel : Nat) (s : State) (rnd : Nat → Nat), boardHasCells s →
      handleResultValidation (fuel + 3) s rnd = some (handleResultValidationResult s rnd)) ∧
    (∀ (fuel : Nat) (s : State) (index : Int) (rnd : Nat → Nat), boardHasCells s →
      index = -1 ∨ hasCell s index →
      makeCellActive (fuel + 4) s index rnd = some (makeCellActiveResult s index rnd)) ∧
    (∀ (fuel : Nat) (s : State) (rnd : Nat → Nat), s.gameActive = false →
      endTurn (fuel + 1) s rnd = some s) ∧
    (∀ (fuel : Nat) (s : State) (rnd : Nat → Nat), s.gameActive = true →
      Cell.empty ∉ s.gameState →
        endTurn (fuel + 1) s rnd = handleResultValidation fuel (switchPlayer s) rnd) ∧
    (∀ (fuel : Nat) (s : State) (rnd : Nat → Nat), boardHasCells s → s.gameActive = true →
      Cell.empty ∈ s.gameState →
        ∃ i : Nat, s.gameState[i]? = some Cell.empty ∧ hasCell (switchPlayer s) (i : Int) ∧
          endTurn (fuel + 1) s rnd =
            makeCellActive fuel (switchPlayer s) (i : Int) (fun n => rnd (n + 1))) ∧
    (∀ (fuel : Nat) (s : State) (rnd : Nat → Nat), Cell.empty ∉ s.gameState →
      handleResultValidation (fuel + 1) s rnd = some (declareResult s) ∧
      (declareResult s).gameActive = false) ∧
    (∀ (fuel : Nat) (s : State) (index : Int) (rnd : Nat → Nat), index ≠ -1 →
      hasCell s index →
      makeCellActive (fuel + 1) s index rnd = some (activateCell s index)) ∧
    (∀ (fuel : Nat) (s : State) (rnd : Nat → Nat),
      makeCellActive (fuel + 1) s (-1) rnd = handleResultValidation fuel s rnd) := by
  refine ⟨fun fuel s rnd _ => endTurn_eq fuel s rnd,
    fun fuel s rnd _ => handleResultValidation_eq fuel s rnd,
    fun fuel s index rnd _ _ => makeCellActive_eq fuel s index rnd, ?_, ?_, ?_, ?_, ?_, ?_⟩
  · intro fuel s rnd hA
    rw [endTurn_succ, if_pos (by simp [hA])]
  · intro fuel s rnd hA hfull
    rw [endTurn_succ, if_neg (by simp [hA]),
      if_pos ((pickRandomEmptyCell_eq_neg_one _ rnd).mpr hfull),
      pickRandomEmptyCell_of_not_mem _ rnd hfull]
  · intro fuel s rnd hb hA hm
    obtain ⟨i, hp, hi⟩ := pickRandomEmptyCell_of_mem s.gameState rnd hm
    refine ⟨i, hi, hasCell_of_board s i hb hi, ?_⟩
    rw [endTurn_succ, if_neg (by simp [hA]),
      if_neg (fun h => (pickRandomEmptyCell_eq_neg_one _ rnd).mp h hm), hp]
  · intro fuel s rnd hfull
    refine ⟨?_, declareResult_gameActive s⟩
    rw [handleResultValidation_succ, if_pos (Or.inr (by simp [hfull]))]
  · intro fuel s index rnd hi _
    rw [makeCellActive_succ, if_neg hi]
  · intro fuel s rnd
    rw [makeCellActive_succ, if_pos rfl]

/-- C19 on the freshly started game, a page with nine cells: `makeCellActive(-1)` needs
the full depth of 4 there (`handleResultValidation`, `endTurn`, `makeCellActive`), and
returns with it; `makeCellActive(0)` returns at depth 1. -/
theorem mutual_calls_terminate_witness :
    boardHasCells startedState ∧ hasCell startedState 0 ∧
      makeCellActive 3 startedState (-1) (constRnd 0) = none ∧
      makeCellActive 4 startedState (-1) (constRnd 0) =
        some (makeCellActiveResult startedState (-1) (constRnd 0)) ∧
      makeCellActive 1 startedState 0 (constRnd 0) = some (activateCell startedState 0) ∧
      handleResultValidation 1 fullDrawState (constRnd 0) = some (declareResult fullDrawState) :=
  ⟨by decide, by decide, by decide!,
   mutual_calls_terminate.2.2.1 0 startedState (-1) (constRnd 0) (by decide) (Or.inl rfl),
   mutual_calls_terminate.2.2.2.2.2.2.2.1 0 startedState 0 (constRnd 0) (by decide) (by decide),
   (mutual_calls_terminate.2.2.2.2.2.2.1 0 fullDrawState (constRnd 0) (by decide)).1⟩

end TicTacBoom
